import Mathlib

/-!
# powerpc64 user call-chain walker

A shallow embedding of `arch/powerpc/perf/callchain_64.c` (linux-5.7.10-cachy):
the fault-tolerant word reader (`read_user_stack_slow`, `read_user_stack_64`),
the signal-frame recogniser (`is_sigreturn_64_address`, `sane_signal_64_frame`)
and the walker loop (`perf_callchain_user_64`).

Conventions.
* `unsigned long` values are natural numbers, arithmetic on them is reduced
  modulo `2 ^ 64` explicitly (`wrap`).
* Everything the file takes from headers that are not part of the translated
  source (constants, structure offsets, page-table primitives, the fast
  user-copy primitive, the plausibility check) is a field of `Env`.
* The kernel-side effects that the properties talk about (the local interrupt
  flag and the sequence of memory accesses performed) are threaded explicitly
  as a `Kernel` value.
-/

namespace Callchain64

/-! ## Machine words -/

/-- Modulus of `unsigned long` arithmetic. -/
def U64 : Nat := 2 ^ 64

/-- Reduce a natural number to an `unsigned long`. -/
def wrap (x : Nat) : Nat := x % U64

/-- The value `-EFAULT`. -/
def EFAULT_neg : Int := -14

/-- Object representation of an `unsigned long`: its eight bytes in memory order. -/
def bytes_of_word (be : Bool) (w : Nat) : List Nat :=
  let le := (List.range 8).map (fun i => (w / 256 ^ i) % 256)
  if be then le.reverse else le

/-- Value of an `unsigned long` whose object representation is the first eight
bytes of `bs`. -/
def word_of_bytes (be : Bool) (bs : List Nat) : Nat :=
  let le := if be then (bs.take 8).reverse else bs.take 8
  le.foldr (fun b acc => b % 256 + 256 * acc) 0

/-! ## Observable kernel state -/

/-- Accesses and interrupt operations performed by the reader, in program order. -/
inductive Event where
  | probe (src : Nat)
  | irq_save
  | pte_lookup (pgdir addr : Nat)
  | memcpy (src nb : Nat)
  | irq_restore (flags : Bool)
  deriving DecidableEq, Repr

/-- Local interrupt flag of the processor together with the log of events. -/
structure Kernel where
  irq_enabled : Bool
  trace : List Event
  deriving DecidableEq, Repr

/-- Behaviour of `local_irq_save(flags)`: the previous flag is returned and
interrupts are disabled. -/
def local_irq_save (k : Kernel) : Bool × Kernel :=
  (k.irq_enabled, { irq_enabled := false, trace := k.trace ++ [Event.irq_save] })

/-- Behaviour of `local_irq_restore(flags)`. -/
def local_irq_restore (k : Kernel) (flags : Bool) : Kernel :=
  { irq_enabled := flags, trace := k.trace ++ [Event.irq_restore flags] }

/-- Register snapshot of the interrupted thread (`struct pt_regs`). -/
structure pt_regs where
  gpr : Nat → Nat
  nip : Nat
  link : Nat

/-- Everything the translated file takes from its surroundings. -/
structure Env where
  /-- Value of the macro `TASK_SIZE` for the current task. -/
  TASK_SIZE : Nat
  /-- Value of the macro `PAGE_SHIFT`. -/
  PAGE_SHIFT : Nat
  /-- Index `PT_R1` into the saved general purpose registers. -/
  PT_R1 : Nat
  /-- Index `PT_NIP`. -/
  PT_NIP : Nat
  /-- Index `PT_LNK`. -/
  PT_LNK : Nat
  /-- Marker value `PERF_CONTEXT_USER`. -/
  PERF_CONTEXT_USER : Nat
  /-- Value of `offsetof(struct signal_frame_64, uc)`. -/
  off_uc : Nat
  /-- Value of `offsetof(struct signal_frame_64, uc.uc_mcontext.gp_regs)`. -/
  off_gp_regs : Nat
  /-- Value of `offsetof(struct signal_frame_64, tramp)`. -/
  off_tramp : Nat
  /-- Value of `offsetof(struct signal_frame_64, pinfo)`. -/
  off_pinfo : Nat
  /-- Value of `offsetof(struct signal_frame_64, puc)`. -/
  off_puc : Nat
  /-- Value of `offsetof(struct signal_frame_64, info)`. -/
  off_info : Nat
  /-- Value of `sizeof(struct signal_frame_64)`. -/
  sizeof_signal_frame_64 : Nat
  /-- The plausibility check `invalid_user_sp` of `callchain.h`. -/
  invalid_user_sp : Nat → Bool
  /-- The fast path `probe_user_read(dst, src, 8)`: `some w` when it returns 0
  having stored `w`, `none` when it returns an error. -/
  probe_user_read : Nat → Option Nat
  /-- The pointer `current->mm->pgd` (0 is `NULL`). -/
  pgd : Nat
  /-- The lookup `find_current_mm_pte(pgdir, addr, NULL, &shift)`: the entry
  pointer (0 is `NULL`) and the value left in `shift`. -/
  find_current_mm_pte : Nat → Nat → Nat × Nat
  /-- The load `READ_ONCE(*ptep)`. -/
  read_pte : Nat → Nat
  /-- The predicate `pte_present`. -/
  pte_present : Nat → Bool
  /-- The predicate `pte_user`. -/
  pte_user : Nat → Bool
  /-- The accessor `pte_pfn`. -/
  pte_pfn : Nat → Nat
  /-- The predicate `page_is_ram`. -/
  page_is_ram : Nat → Bool
  /-- The map `pfn_to_kaddr`. -/
  pfn_to_kaddr : Nat → Nat
  /-- Kernel memory, one byte per kernel address. -/
  kmem : Nat → Nat
  /-- Byte order of the machine. -/
  big_endian : Bool
  /-- The global `vdso64_rt_sigtramp`. -/
  vdso64_rt_sigtramp : Nat
  /-- The field `current->mm->context.vdso_base`. -/
  vdso_base : Nat
  /-- The function `perf_instruction_pointer`. -/
  perf_instruction_pointer : pt_regs → Nat

/-! ## Safe user memory reader -/

/-- Result of `read_user_stack_slow`: return code, destination buffer, kernel state. -/
structure SlowResult where
  ret : Int
  buf : List Nat
  k : Kernel
  deriving DecidableEq, Repr

/-- Behaviour of `memcpy(buf, src, nb)` with the source in kernel memory: the
first `nb` bytes of `buf` are replaced. -/
def memcpy (kmem : Nat → Nat) (buf : List Nat) (src nb : Nat) : List Nat :=
  (List.range nb).map (fun i => kmem (src + i)) ++ buf.drop nb

/-- The in-page offset `addr & ((1UL << shift) - 1)`; a shift of 64 or more,
undefined in C, is taken to produce 0 before the subtraction. -/
def page_offset (addr shift : Nat) : Nat :=
  addr &&& wrap (wrap (1 <<< shift) + U64 - 1)

/-- Embedding of `read_user_stack_slow(ptr, buf, nb)`. -/
def read_user_stack_slow (env : Env) (k : Kernel) (ptr : Nat) (buf : List Nat)
    (nb : Nat) : SlowResult :=
  let addr := ptr
  let pgdir := env.pgd
  if pgdir = 0 then
    { ret := EFAULT_neg, buf := buf, k := k }
  else
    let saved := local_irq_save k
    let flags := saved.1
    let k1 := saved.2
    let found := env.find_current_mm_pte pgdir addr
    let k2 : Kernel := { k1 with trace := k1.trace ++ [Event.pte_lookup pgdir addr] }
    let ptep := found.1
    if ptep = 0 then
      { ret := EFAULT_neg, buf := buf, k := local_irq_restore k2 flags }
    else
      let shift := if found.2 = 0 then env.PAGE_SHIFT else found.2
      let offset := page_offset addr shift
      let pte := env.read_pte ptep
      if !env.pte_present pte || !env.pte_user pte then
        { ret := EFAULT_neg, buf := buf, k := local_irq_restore k2 flags }
      else
        let pfn := env.pte_pfn pte
        if !env.page_is_ram pfn then
          { ret := EFAULT_neg, buf := buf, k := local_irq_restore k2 flags }
        else
          let kaddr := env.pfn_to_kaddr pfn
          let src := wrap (kaddr + offset)
          let k3 : Kernel := { k2 with trace := k2.trace ++ [Event.memcpy src nb] }
          { ret := 0, buf := memcpy env.kmem buf src nb, k := local_irq_restore k3 flags }

/-- Result of `read_user_stack_64`: return code, the destination word `*ret`,
kernel state. -/
structure ReadResult where
  ret : Int
  val : Nat
  k : Kernel
  deriving DecidableEq, Repr

/-- Embedding of `read_user_stack_64(ptr, ret)`; `dst` is the value of `*ret`
on entry. -/
def read_user_stack_64 (env : Env) (k : Kernel) (ptr : Nat) (dst : Nat) : ReadResult :=
  if ptr > wrap (env.TASK_SIZE + U64 - 8) || (ptr &&& 7) != 0 then
    { ret := EFAULT_neg, val := dst, k := k }
  else
    let k1 : Kernel := { k with trace := k.trace ++ [Event.probe ptr] }
    match env.probe_user_read ptr with
    | some w => { ret := 0, val := w, k := k1 }
    | none =>
      let r := read_user_stack_slow env k1 ptr (bytes_of_word env.big_endian dst) 8
      { ret := r.ret, val := word_of_bytes env.big_endian r.buf, k := r.k }

/-- The entry `READ_ONCE(*ptep)` that `read_user_stack_slow` examines for `addr`. -/
def lookup_pte (env : Env) (addr : Nat) : Nat :=
  env.read_pte (env.find_current_mm_pte env.pgd addr).1

/-- The mapping shift `read_user_stack_slow` uses for `addr`: the one reported
by the lookup, or `PAGE_SHIFT` when the lookup reports 0. -/
def mapping_shift (env : Env) (addr : Nat) : Nat :=
  if (env.find_current_mm_pte env.pgd addr).2 = 0 then env.PAGE_SHIFT
  else (env.find_current_mm_pte env.pgd addr).2

/-- The address `addr` translates: the page-table root is non-null, the lookup
finds an entry, the entry is present and user-accessible, its frame is RAM. -/
def translates (env : Env) (addr : Nat) : Prop :=
  env.pgd ≠ 0 ∧ (env.find_current_mm_pte env.pgd addr).1 ≠ 0 ∧
  env.pte_present (lookup_pte env addr) = true ∧
  env.pte_user (lookup_pte env addr) = true ∧
  env.page_is_ram (env.pte_pfn (lookup_pte env addr)) = true

/-- The kernel address `kaddr + offset` that `read_user_stack_slow` copies from. -/
def slow_src (env : Env) (addr : Nat) : Nat :=
  wrap (env.pfn_to_kaddr (env.pte_pfn (lookup_pte env addr))
    + page_offset addr (mapping_shift env addr))

/-- The `unsigned long` whose eight bytes are stored at kernel address `src`. -/
def kernel_word (env : Env) (src : Nat) : Nat :=
  word_of_bytes env.big_endian ((List.range 8).map (fun i => env.kmem (src + i)))

/-- An interrupt operation: `local_irq_save` or `local_irq_restore`. -/
def Event.is_irq_op : Event → Bool
  | Event.irq_save => true
  | Event.irq_restore _ => true
  | _ => false

/-- The event is an access made on behalf of user address `a`: the fast-path
read of `a` or the page-table lookup for `a`. -/
def Event.touches (a : Nat) : Event → Bool
  | Event.probe src => src == a
  | Event.pte_lookup _ addr => addr == a
  | _ => false

/-- The environment `env` with the fast-path view of the word at `a` replaced by
`x` (`none`: unreadable); everything else is as in `env`. -/
def poke_fast (env : Env) (a : Nat) (x : Option Nat) : Env :=
  { env with probe_user_read := fun p => if p = a then x else env.probe_user_read p }

/-! ## Signal frame recogniser -/

/-- Embedding of `is_sigreturn_64_address(nip, fp)`. -/
def is_sigreturn_64_address (env : Env) (nip fp : Nat) : Bool :=
  if nip = wrap (fp + env.off_tramp) then true
  else if env.vdso64_rt_sigtramp ≠ 0 ∧ env.vdso_base ≠ 0 ∧
      nip = wrap (env.vdso_base + env.vdso64_rt_sigtramp) then true
  else false

/-- The read `read_user_stack_64(&sf->pinfo, &pinfo)`.  The local `pinfo` is
uninitialised in the source; it enters the read as 0 and is only used after a
successful read. -/
def rd_pinfo (env : Env) (k : Kernel) (sp : Nat) : ReadResult :=
  read_user_stack_64 env k (wrap (sp + env.off_pinfo)) 0

/-- The read `read_user_stack_64(&sf->puc, &puc)`, performed after a successful
read of `pinfo`; the local `puc` enters as 0 like `pinfo`. -/
def rd_puc (env : Env) (k : Kernel) (sp : Nat) : ReadResult :=
  read_user_stack_64 env (rd_pinfo env k sp).k (wrap (sp + env.off_puc)) 0

/-- Embedding of `sane_signal_64_frame(sp)`. -/
def sane_signal_64_frame (env : Env) (k : Kernel) (sp : Nat) : Bool × Kernel :=
  if (rd_pinfo env k sp).ret ≠ 0 then (false, (rd_pinfo env k sp).k)
  else if (rd_puc env k sp).ret ≠ 0 then (false, (rd_puc env k sp).k)
  else ((rd_pinfo env k sp).val == wrap (sp + env.off_info) &&
          (rd_puc env k sp).val == wrap (sp + env.off_uc), (rd_puc env k sp).k)

/-- The size test `next_sp - sp >= sizeof(struct signal_frame_64)` in
`unsigned long` arithmetic. -/
def size_test (env : Env) (sp next_sp : Nat) : Bool :=
  decide (env.sizeof_signal_frame_64 ≤ wrap (wrap next_sp + U64 - wrap sp))

/-- The trampoline-address test
`is_sigreturn_64_address(next_ip, sp) || (level <= 1 && is_sigreturn_64_address(lr, sp))`. -/
def tramp_test (env : Env) (sp next_ip lr : Nat) (level : Int) : Bool :=
  is_sigreturn_64_address env next_ip sp ||
    (decide (level ≤ 1) && is_sigreturn_64_address env lr sp)

/-- The condition of the `if` that classifies the segment at `sp` as a signal
frame; `sane_signal_64_frame` is only called when the first two tests pass. -/
def signal_frame_test (env : Env) (k : Kernel) (sp next_sp next_ip lr : Nat)
    (level : Int) : Bool × Kernel :=
  if size_test env sp next_sp && tramp_test env sp next_ip lr level then
    sane_signal_64_frame env k sp
  else (false, k)

/-! ## Call-chain walker -/

/-- Modelled from the spec: the output-sequence handle
`struct perf_callchain_entry_ctx` of `linux/perf_event.h`, which is not part of
the translated file.  The spec describes it as an ordered, append-only sequence
bounded by a caller-supplied maximum length, exposing `append(value)` and a
current-length/`max` pair.  The handle here carries the sequence and the
maximum; what the sequence does when an append would pass the maximum is the
business of the two store operations below. -/
structure Entry where
  ip : List Nat
  max_stack : Nat
  deriving DecidableEq, Repr

/-- Modelled from the spec: the current length `entry->nr` of the handle. -/
def Entry.nr (e : Entry) : Nat := e.ip.length

/-- Modelled from the spec: `perf_callchain_store` of `linux/perf_event.h`, the
`append(value)` operation of the output-sequence handle.  The spec's walker
steps say "append"; this stand-in appends whenever it is called and does not
itself consult `max_stack`, so it records every store the walker requests.  The
spec also calls the sequence bounded by the maximum: a store operation that
refuses at the maximum differs from this one only for stores requested at
length `max_stack` or more, which the walker requests in two places: the
initial store when the sequence it is given is already at the maximum (for an
empty sequence, when `max_stack` is 0), and the second store of a signal-frame
iteration entered at length `max_stack - 1`. -/
def perf_callchain_store (e : Entry) (v : Nat) : Entry :=
  { e with ip := e.ip ++ [v] }

/-- Modelled from the spec: `perf_callchain_store_context` of
`linux/perf_event.h`, appending a context marker to the output sequence; like
`perf_callchain_store` it appends whenever it is called. -/
def perf_callchain_store_context (e : Entry) (v : Nat) : Entry :=
  { e with ip := e.ip ++ [v] }

/-- Locals of `perf_callchain_user_64` together with the output handle and the
kernel state. -/
structure State where
  entry : Entry
  sp : Nat
  next_sp : Nat
  next_ip : Nat
  lr : Nat
  level : Int
  k : Kernel
  deriving DecidableEq, Repr

/-- How one execution of the loop body ends: by `return`, or by reaching the
loop head again (fall-through or `continue`). -/
inductive Outcome where
  | ret (st : State)
  | cont (st : State)
  deriving DecidableEq, Repr

/-- The read `read_user_stack_64(fp, &next_sp)` of the back-link at `sp`. -/
def rd_backlink (env : Env) (st : State) : ReadResult :=
  read_user_stack_64 env st.k st.sp st.next_sp

/-- The conditional read `level > 0 && read_user_stack_64(&fp[2], &next_ip)`;
when `level > 0` is false nothing is read and `next_ip` keeps its value. -/
def rd_saved_ip (env : Env) (st : State) : ReadResult :=
  if st.level > 0 then
    read_user_stack_64 env (rd_backlink env st).k (wrap (st.sp + 16)) st.next_ip
  else { ret := 0, val := st.next_ip, k := (rd_backlink env st).k }

/-- The classification of the segment at `sp`, evaluated after the two reads. -/
def classify (env : Env) (st : State) : Bool × Kernel :=
  signal_frame_test env (rd_saved_ip env st).k st.sp (rd_backlink env st).val
    (rd_saved_ip env st).val st.lr st.level

/-- Address of `uregs[idx]`, where `uregs = sigframe->uc.uc_mcontext.gp_regs`. -/
def uregs_addr (env : Env) (sp idx : Nat) : Nat :=
  wrap (wrap (sp + env.off_gp_regs) + 8 * idx)

/-- The read `read_user_stack_64(&uregs[PT_NIP], &next_ip)`. -/
def rd_nip (env : Env) (st : State) : ReadResult :=
  read_user_stack_64 env (classify env st).2 (uregs_addr env st.sp env.PT_NIP)
    (rd_saved_ip env st).val

/-- The read `read_user_stack_64(&uregs[PT_LNK], &lr)`. -/
def rd_lnk (env : Env) (st : State) : ReadResult :=
  read_user_stack_64 env (rd_nip env st).k (uregs_addr env st.sp env.PT_LNK) st.lr

/-- The read `read_user_stack_64(&uregs[PT_R1], &sp)`. -/
def rd_r1 (env : Env) (st : State) : ReadResult :=
  read_user_stack_64 env (rd_lnk env st).k (uregs_addr env st.sp env.PT_R1) st.sp

/-- State at the loop head after a completed signal-frame iteration:
`level = 0`, the marker and the recovered instruction pointer stored. -/
def signal_step (env : Env) (st : State) : State :=
  { entry := perf_callchain_store
      (perf_callchain_store_context st.entry env.PERF_CONTEXT_USER) (rd_nip env st).val
    sp := (rd_r1 env st).val
    next_sp := (rd_backlink env st).val
    next_ip := (rd_nip env st).val
    lr := (rd_lnk env st).val
    level := 0
    k := (rd_r1 env st).k }

/-- The return address stored by a normal-frame iteration:
`if (level == 0) next_ip = lr;`. -/
def return_address (env : Env) (st : State) : Nat :=
  if st.level = 0 then st.lr else (rd_saved_ip env st).val

/-- State at the loop head after a normal-frame iteration: return address
stored, `++level`, `sp = next_sp`. -/
def normal_step (env : Env) (st : State) : State :=
  { entry := perf_callchain_store st.entry (return_address env st)
    sp := (rd_backlink env st).val
    next_sp := (rd_backlink env st).val
    next_ip := return_address env st
    lr := st.lr
    level := st.level + 1
    k := (classify env st).2 }

/-- One execution of the body of the `while` loop of `perf_callchain_user_64`. -/
def loop_body (env : Env) (st : State) : Outcome :=
  if env.invalid_user_sp st.sp then Outcome.ret st
  else if (rd_backlink env st).ret ≠ 0 then
    Outcome.ret { st with next_sp := (rd_backlink env st).val, k := (rd_backlink env st).k }
  else if (rd_saved_ip env st).ret ≠ 0 then
    Outcome.ret { st with next_sp := (rd_backlink env st).val,
                          next_ip := (rd_saved_ip env st).val,
                          k := (rd_saved_ip env st).k }
  else if (classify env st).1 then
    if (rd_nip env st).ret ≠ 0 then
      Outcome.ret { st with next_sp := (rd_backlink env st).val,
                            next_ip := (rd_nip env st).val,
                            k := (rd_nip env st).k }
    else if (rd_lnk env st).ret ≠ 0 then
      Outcome.ret { st with next_sp := (rd_backlink env st).val,
                            next_ip := (rd_nip env st).val,
                            lr := (rd_lnk env st).val,
                            k := (rd_lnk env st).k }
    else if (rd_r1 env st).ret ≠ 0 then
      Outcome.ret { st with sp := (rd_r1 env st).val,
                            next_sp := (rd_backlink env st).val,
                            next_ip := (rd_nip env st).val,
                            lr := (rd_lnk env st).val,
                            k := (rd_r1 env st).k }
    else Outcome.cont (signal_step env st)
  else Outcome.cont (normal_step env st)

/-- A read performed by the iteration at `st` fails: the back-link at `sp`, the
saved instruction pointer at `sp + 16` when `level > 0`, or one of the three
register reads of a recognised signal frame. -/
def read_fails (env : Env) (st : State) : Prop :=
  env.invalid_user_sp st.sp = false ∧
  ((rd_backlink env st).ret ≠ 0 ∨
   ((rd_backlink env st).ret = 0 ∧ st.level > 0 ∧ (rd_saved_ip env st).ret ≠ 0) ∨
   ((rd_backlink env st).ret = 0 ∧ (rd_saved_ip env st).ret = 0 ∧
     (classify env st).1 = true ∧
     ((rd_nip env st).ret ≠ 0 ∨
      ((rd_nip env st).ret = 0 ∧ (rd_lnk env st).ret ≠ 0) ∨
      ((rd_nip env st).ret = 0 ∧ (rd_lnk env st).ret = 0 ∧ (rd_r1 env st).ret ≠ 0))))

/-- The `while (entry->nr < entry->max_stack)` loop, with a bound on the number
of executions of the body; `none` means the bound was reached with the loop
condition still true. -/
def walk_loop (env : Env) : Nat → State → Option State
  | 0, st => if st.entry.nr < st.entry.max_stack then none else some st
  | fuel + 1, st =>
    if st.entry.nr < st.entry.max_stack then
      match loop_body env st with
      | Outcome.ret st1 => some st1
      | Outcome.cont st1 => walk_loop env fuel st1
    else some st

/-- Loop-head states of one walk: `Reaches env st st1` holds when the loop, at
its head in state `st`, arrives at its head again in state `st1` after zero or
more completed iterations. -/
inductive Reaches (env : Env) : State → State → Prop where
  | refl (st : State) : Reaches env st st
  | step (st st1 st2 : State) (hnr : st.entry.nr < st.entry.max_stack)
      (hbody : loop_body env st = Outcome.cont st1) (hrest : Reaches env st1 st2) :
      Reaches env st st2

/-- Number of executions of the loop body performed by `walk_loop env fuel st`. -/
def iterations (env : Env) : Nat → State → Nat
  | 0, _ => 0
  | fuel + 1, st =>
    if st.entry.nr < st.entry.max_stack then
      match loop_body env st with
      | Outcome.ret _ => 1
      | Outcome.cont st1 => 1 + iterations env fuel st1
    else 0

/-- State at the loop head on first arrival.  The local `next_sp` is
uninitialised in the source and is written before it is read; it starts as 0. -/
def init_state (env : Env) (k : Kernel) (entry : Entry) (regs : pt_regs) : State :=
  let next_ip := env.perf_instruction_pointer regs
  { entry := perf_callchain_store entry next_ip
    sp := regs.gpr 1
    next_sp := 0
    next_ip := next_ip
    lr := regs.link
    level := 0
    k := k }

/-- Embedding of `perf_callchain_user_64(entry, regs)`.  The body can run at
most `max_stack` times (see `walk_loop_total`), which is the bound given to the
loop. -/
def perf_callchain_user_64 (env : Env) (k : Kernel) (entry : Entry) (regs : pt_regs) :
    Option State :=
  walk_loop env entry.max_stack (init_state env k entry regs)

/-- Loop-head states of the walk `perf_callchain_user_64(entry, regs)` with two
bookkeeping counters: `n` is the number of normal-frame steps taken since the
start of the walk or since the most recent signal transition, and `b` is the
number of entries up to and including the marker stored by the most recent
signal transition (the length of the initial sequence if there was none). -/
inductive Head (env : Env) (k : Kernel) (entry : Entry) (regs : pt_regs) :
    State → Nat → Nat → Prop where
  | start : Head env k entry regs (init_state env k entry regs) 0 entry.ip.length
  | normal (st : State) (n b : Nat) (hprev : Head env k entry regs st n b)
      (hnr : st.entry.nr < st.entry.max_stack)
      (hbody : loop_body env st = Outcome.cont (normal_step env st))
      (hc : (classify env st).1 = false) :
      Head env k entry regs (normal_step env st) (n + 1) b
  | signal (st : State) (n b : Nat) (hprev : Head env k entry regs st n b)
      (hnr : st.entry.nr < st.entry.max_stack)
      (hbody : loop_body env st = Outcome.cont (signal_step env st))
      (hc : (classify env st).1 = true) :
      Head env k entry regs (signal_step env st) 0 (st.entry.ip.length + 1)

/-- Number of entries of `l` after the last entry whose value is `m`; the
length of `l` when no entry has that value. -/
def entries_after_last (m : Nat) (l : List Nat) : Nat :=
  (l.reverse.takeWhile (fun v => v != m)).length

/-! ## Concrete instances used to exercise the definitions -/

/-- An illustrative plausibility check: non-null, 8-byte aligned, at most
`2 ^ 46 - 32`. -/
def demo_invalid_user_sp (sp : Nat) : Bool :=
  sp == 0 || (sp &&& 7) != 0 || decide (2 ^ 46 - 32 < sp)

/-- An environment whose fast path sees the words listed in `mem`, whose
page-table root is `pgd`, and whose page table maps the single 64K page at
`0x20000` to frame 7 (present, user, RAM); every other lookup finds nothing. -/
def demo_env (mem : List (Nat × Nat)) (pgd vdso_base sigtramp : Nat) : Env :=
  { TASK_SIZE := 2 ^ 46
    PAGE_SHIFT := 16
    PT_R1 := 1
    PT_NIP := 32
    PT_LNK := 36
    PERF_CONTEXT_USER := 2 ^ 64 - 512
    off_uc := 128
    off_gp_regs := 360
    off_tramp := 1840
    off_pinfo := 1864
    off_puc := 1872
    off_info := 1880
    sizeof_signal_frame_64 := 2296
    invalid_user_sp := demo_invalid_user_sp
    probe_user_read := fun a => mem.lookup a
    pgd := pgd
    find_current_mm_pte := fun _ addr => if addr / 65536 = 2 then (4096, 0) else (0, 0)
    read_pte := fun p => if p = 4096 then 7 * 65536 + 3 else 0
    pte_present := fun pte => pte % 2 == 1
    pte_user := fun pte => (pte / 2) % 2 == 1
    pte_pfn := fun pte => pte / 65536
    page_is_ram := fun pfn => decide (pfn < 1024)
    pfn_to_kaddr := fun pfn => 2 ^ 63 + 2 ^ 62 + pfn * 65536
    kmem := fun a => a % 251
    big_endian := true
    vdso64_rt_sigtramp := sigtramp
    vdso_base := vdso_base
    perf_instruction_pointer := fun regs => regs.nip }

/-- Fast-path memory holding a well-formed signal frame at `sp` for the layout
of `demo_env`: back-link `next_sp`, self-referencing `pinfo` and `puc`, and the
saved registers `nip`, `lnk`, `r1`. -/
def demo_sigframe (sp next_sp nip lnk r1 : Nat) : List (Nat × Nat) :=
  [(sp, next_sp), (sp + 1864, sp + 1880), (sp + 1872, sp + 128),
   (sp + 360 + 8 * 32, nip), (sp + 360 + 8 * 36, lnk), (sp + 360 + 8 * 1, r1)]

/-- A register snapshot with instruction pointer `ip`, link register `lr` and
stack pointer `sp` in `gpr[1]`. -/
def demo_regs (ip lr sp : Nat) : pt_regs :=
  { gpr := fun i => if i = 1 then sp else 0, nip := ip, link := lr }

/-- A kernel state with interrupts enabled and an empty event log. -/
def k0 : Kernel := { irq_enabled := true, trace := [] }

/-- Fast-path memory of a three-frame call stack: back-links
`0x1000 -> 0x1100 -> 0x1200 -> 0` and saved instruction pointers at
`0x1110` and `0x1210`. -/
def demo_chain : List (Nat × Nat) :=
  [(0x1000, 0x1100), (0x1100, 0x1200), (0x1110, 0xAAAA), (0x1200, 0), (0x1210, 0xBBBB)]

/-- Stack pointers of `demo_chain`, root last. -/
def demo_sp (i : Nat) : Nat := [0x1000, 0x1100, 0x1200, 0].getD i 0

/-- Saved instruction pointers of `demo_chain`, by frame. -/
def demo_w (i : Nat) : Nat := [0, 0xAAAA, 0xBBBB].getD i 0

/-- Environment of the walk over `demo_chain`. -/
def chain_env : Env := demo_env demo_chain 0 0 0

/-- Environment with a well-formed signal frame at `0x1000` (back-link `0x3000`,
saved `nip = 0x7777`, `lnk = 0x8888`, `r1 = 0x5000`) and no vdso trampoline. -/
def sig_env : Env := demo_env (demo_sigframe 0x1000 0x3000 0x7777 0x8888 0x5000) 0 0 0

/-- Loop-head state of a walk in `sig_env` sampled inside the on-stack
trampoline of the frame at `0x1000`. -/
def sig_state : State :=
  init_state sig_env k0 { ip := [], max_stack := 10 } (demo_regs (0x1000 + 1840) 0x222 0x1000)

/-- Environment with the same signal frame and a registered vdso trampoline at
`0x70000000 + 0x400`. -/
def vdso_env : Env :=
  demo_env (demo_sigframe 0x1000 0x3000 0x7777 0x8888 0x5000) 0 0x70000000 0x400

/-- Loop-head state of a walk in `vdso_env` sampled at the vdso trampoline
address, with an unrelated link register. -/
def vdso_state : State :=
  init_state vdso_env k0 { ip := [], max_stack := 10 } (demo_regs 0x70000400 0x222 0x1000)

/-- Environment with a signal frame at `0x3000` whose back-link `0x1000` is
numerically smaller than the frame address. -/
def altstack_env : Env := demo_env (demo_sigframe 0x3000 0x1000 0x7777 0x8888 0x5000) 0 0 0

/-- Loop-head state of a walk in `altstack_env` sampled inside the on-stack
trampoline of the frame at `0x3000`. -/
def altstack_state : State :=
  init_state altstack_env k0 { ip := [], max_stack := 10 }
    (demo_regs (0x3000 + 1840) 0x222 0x3000)

/-- Environment with a frame at `0x1000` that passes the size and trampoline
tests but whose `pinfo` field holds `0xdead`; the next frame at `0x3000` is an
ordinary one with saved instruction pointer `0x9999` and back-link 0. -/
def mismatch_env : Env :=
  demo_env [(0x1000, 0x3000), (0x1000 + 1864, 0xdead), (0x1000 + 1872, 0x1000 + 128),
            (0x3000, 0), (0x3010, 0x9999)] 0 0 0

/-- Register snapshot for `mismatch_env`: sampled at `0x1000 + 1840`. -/
def mismatch_regs : pt_regs := demo_regs (0x1000 + 1840) 0x222 0x1000

/-- Loop-head state of the walk in `mismatch_env`. -/
def mismatch_state : State :=
  init_state mismatch_env k0 { ip := [], max_stack := 10 } mismatch_regs

/-- Environment whose frame at `0x1000` has a back-link to itself. -/
def cyclic_env : Env := demo_env [(0x1000, 0x1000), (0x1010, 0xAAAA)] 0 0 0

/-- Environment with a signal frame at `0x1000` whose saved stack pointer is
`0x1000` again and whose saved instruction pointer is its own trampoline. -/
def sigloop_env : Env :=
  demo_env (demo_sigframe 0x1000 0x3000 (0x1000 + 1840) 0x8888 0x1000) 0 0 0

/-- Environment with an empty fast-path memory and a non-null page-table root:
only the page at `0x20000` is readable, through the slow path. -/
def slow_env : Env := demo_env [] 9 0 0

/-- Environment as `slow_env` whose fast path also shows the word at `0x20008`,
with value 77. -/
def fast_env : Env := demo_env [(0x20008, 77)] 9 0 0

/-- Loop-head state of the walk over `demo_chain`. -/
def chain_state : State :=
  init_state chain_env k0 { ip := [], max_stack := 10 } (demo_regs 0x111 0x222 0x1000)

/-- Environment with a signal frame at `0x1000` whose saved link register
`gp_regs[PT_LNK]` is unreadable. -/
def nolnk_env : Env :=
  demo_env [(0x1000, 0x3000), (0x1000 + 1864, 0x1000 + 1880), (0x1000 + 1872, 0x1000 + 128),
            (0x1000 + 360 + 8 * 32, 0x7777), (0x1000 + 360 + 8 * 1, 0x5000)] 0 0 0

/-- Loop-head state of the walk in `nolnk_env`. -/
def nolnk_state : State :=
  init_state nolnk_env k0 { ip := [], max_stack := 10 } (demo_regs (0x1000 + 1840) 0x222 0x1000)

/-! # Theorems -/

/-! ## Reader: guard and slow path -/

theorem EFAULT_neg_ne_zero : EFAULT_neg ≠ 0 := by decide

theorem read_user_stack_64_fault_of_guard (env : Env) (k : Kernel) (ptr dst : Nat)
    (h : wrap (env.TASK_SIZE + U64 - 8) < ptr ∨ ptr &&& 7 ≠ 0) :
    read_user_stack_64 env k ptr dst = { ret := EFAULT_neg, val := dst, k := k } := by
  unfold read_user_stack_64
  have hg : (decide (ptr > wrap (env.TASK_SIZE + U64 - 8)) || (ptr &&& 7) != 0) = true := by
    rcases h with h | h
    · simp [h]
    · simp [h]
  rw [if_pos hg]

theorem read_user_stack_64_guard_of_ok (env : Env) (k : Kernel) (ptr dst : Nat)
    (h : (read_user_stack_64 env k ptr dst).ret = 0) :
    ptr ≤ wrap (env.TASK_SIZE + U64 - 8) ∧ ptr &&& 7 = 0 := by
  by_contra hc
  have hg : wrap (env.TASK_SIZE + U64 - 8) < ptr ∨ ptr &&& 7 ≠ 0 := by
    by_cases h1 : ptr ≤ wrap (env.TASK_SIZE + U64 - 8)
    · right
      intro h2
      exact hc ⟨h1, h2⟩
    · left
      omega
  rw [read_user_stack_64_fault_of_guard env k ptr dst hg] at h
  exact EFAULT_neg_ne_zero h

theorem wrap_task_size (env : Env) (h8 : 8 ≤ env.TASK_SIZE) (hT : env.TASK_SIZE < U64) :
    wrap (env.TASK_SIZE + U64 - 8) = env.TASK_SIZE - 8 := by
  unfold wrap
  have : env.TASK_SIZE + U64 - 8 = (env.TASK_SIZE - 8) + U64 := by omega
  rw [this, Nat.add_mod_right]
  exact Nat.mod_eq_of_lt (by omega)

/-- C5: an address that is not 8-byte aligned or exceeds `TASK_SIZE - 8` makes
`read_user_stack_64` return `-EFAULT` with the destination word and the kernel
state (event log, interrupt flag) exactly as on entry, so neither the fast path
nor `read_user_stack_slow` ran; and whenever the call succeeds the address is
8-byte aligned and `ptr + 8 <= TASK_SIZE`.  `TASK_SIZE` is a user address-space
size, at least 8 and representable in 64 bits. -/
theorem read_user_stack_64_rejects_bad_address (env : Env) (k : Kernel) (ptr dst : Nat)
    (h8 : 8 ≤ env.TASK_SIZE) (hT : env.TASK_SIZE < U64) :
    ((ptr &&& 7 ≠ 0 ∨ env.TASK_SIZE - 8 < ptr) →
        read_user_stack_64 env k ptr dst = { ret := EFAULT_neg, val := dst, k := k }) ∧
    ((read_user_stack_64 env k ptr dst).ret = 0 →
        ptr &&& 7 = 0 ∧ ptr % 8 = 0 ∧ ptr + 8 ≤ env.TASK_SIZE) := by
  have hw := wrap_task_size env h8 hT
  constructor
  · intro h
    apply read_user_stack_64_fault_of_guard
    rw [hw]
    rcases h with h | h
    · exact Or.inr h
    · exact Or.inl h
  · intro h
    have hg := read_user_stack_64_guard_of_ok env k ptr dst h
    rw [hw] at hg
    refine ⟨hg.2, ?_, by omega⟩
    have := hg.2
    rw [show (7 : Nat) = 2 ^ 3 - 1 by norm_num, Nat.and_pow_two_sub_one_eq_mod] at this
    simpa using this

/-- C10: `read_user_stack_slow` returns 0 exactly when the page-table root is
non-null, the lookup finds an entry, the entry is present and user-accessible
and its frame is RAM; in every other case it returns `-EFAULT` and the
destination buffer is the one passed in, unchanged. -/
theorem read_user_stack_slow_success_iff (env : Env) (k : Kernel) (ptr : Nat)
    (buf : List Nat) (nb : Nat) :
    ((read_user_stack_slow env k ptr buf nb).ret = 0 ↔
      (env.pgd ≠ 0 ∧ (env.find_current_mm_pte env.pgd ptr).1 ≠ 0 ∧
        env.pte_present (env.read_pte (env.find_current_mm_pte env.pgd ptr).1) = true ∧
        env.pte_user (env.read_pte (env.find_current_mm_pte env.pgd ptr).1) = true ∧
        env.page_is_ram
          (env.pte_pfn (env.read_pte (env.find_current_mm_pte env.pgd ptr).1)) = true)) ∧
    ((read_user_stack_slow env k ptr buf nb).ret ≠ 0 →
      (read_user_stack_slow env k ptr buf nb).ret = EFAULT_neg ∧
        (read_user_stack_slow env k ptr buf nb).buf = buf) := by
  unfold read_user_stack_slow
  simp only []
  by_cases h1 : env.pgd = 0
  · simp [h1, EFAULT_neg]
  · by_cases h2 : (env.find_current_mm_pte env.pgd ptr).1 = 0
    · simp [h1, h2, EFAULT_neg]
    · by_cases h3 : env.pte_present (env.read_pte (env.find_current_mm_pte env.pgd ptr).1) = true
      · by_cases h4 : env.pte_user (env.read_pte (env.find_current_mm_pte env.pgd ptr).1) = true
        · by_cases h5 : env.page_is_ram
              (env.pte_pfn (env.read_pte (env.find_current_mm_pte env.pgd ptr).1)) = true
          · simp [h1, h2, h3, h4, h5]
          · simp [h1, h2, h3, h4, h5, EFAULT_neg]
        · simp [h1, h2, h3, h4, EFAULT_neg]
      · simp [h1, h2, h3, EFAULT_neg]

/-- Witness of C5: with the illustrative `TASK_SIZE = 2 ^ 46`, the misaligned
address `0x20009` is rejected without any event, and the successful read at
`0x20008` is aligned and in range. -/
theorem read_user_stack_64_rejects_bad_address_witness :
    8 ≤ (demo_env [] 9 0 0).TASK_SIZE ∧ (demo_env [] 9 0 0).TASK_SIZE < U64 ∧
    read_user_stack_64 (demo_env [] 9 0 0) k0 0x20009 5
      = { ret := EFAULT_neg, val := 5, k := k0 } ∧
    (0x20008 &&& 7 = 0 ∧ 0x20008 % 8 = 0 ∧ 0x20008 + 8 ≤ (demo_env [] 9 0 0).TASK_SIZE) :=
  ⟨by decide, by decide,
   (read_user_stack_64_rejects_bad_address (demo_env [] 9 0 0) k0 0x20009 5
      (by decide) (by decide)).1 (Or.inl (by decide)),
   (read_user_stack_64_rejects_bad_address (demo_env [] 9 0 0) k0 0x20008 5
      (by decide) (by decide)).2 (by decide)⟩

/-! ## Recogniser -/

theorem wrap_of_lt {x : Nat} (h : x < U64) : wrap x = x := Nat.mod_eq_of_lt h

theorem is_sigreturn_64_address_iff (env : Env) (nip fp : Nat) :
    is_sigreturn_64_address env nip fp = true ↔
      (nip = wrap (fp + env.off_tramp) ∨
        (env.vdso64_rt_sigtramp ≠ 0 ∧ env.vdso_base ≠ 0 ∧
          nip = wrap (env.vdso_base + env.vdso64_rt_sigtramp))) := by
  unfold is_sigreturn_64_address
  by_cases h1 : nip = wrap (fp + env.off_tramp)
  · simp [h1]
  · by_cases h2 : env.vdso64_rt_sigtramp ≠ 0 ∧ env.vdso_base ≠ 0 ∧
        nip = wrap (env.vdso_base + env.vdso64_rt_sigtramp)
    · rw [if_neg h1, if_pos h2]
      simp only [true_iff]
      exact Or.inr h2
    · rw [if_neg h1, if_neg h2]
      simp only [Bool.false_eq_true, false_iff, not_or]
      exact ⟨h1, h2⟩

theorem signal_frame_test_true_iff (env : Env) (k : Kernel) (sp next_sp next_ip lr : Nat)
    (level : Int) :
    (signal_frame_test env k sp next_sp next_ip lr level).1 = true ↔
      (size_test env sp next_sp = true ∧ tramp_test env sp next_ip lr level = true ∧
        (sane_signal_64_frame env k sp).1 = true) := by
  unfold signal_frame_test
  by_cases h1 : size_test env sp next_sp = true
  · by_cases h2 : tramp_test env sp next_ip lr level = true
    · simp [h1, h2]
    · simp [h1, h2]
  · simp [h1]

theorem size_test_of_lt (env : Env) (sp next_sp : Nat)
    (h1 : sp < U64) (hsp : sp + env.sizeof_signal_frame_64 ≤ U64) (hlt : next_sp < sp) :
    size_test env sp next_sp = true := by
  unfold size_test
  have h2 : next_sp < U64 := by omega
  rw [wrap_of_lt h1, wrap_of_lt h2, wrap_of_lt (by omega)]
  simp only [decide_eq_true_eq]
  omega

/-- C7: in an iteration whose back-link read at `sp` succeeded with a value
numerically below `sp`, the wraparound test
`next_sp - sp >= sizeof(struct signal_frame_64)` is true, so such a segment is
classified as a signal frame as soon as the trampoline-address test and the
structural confirmation pass.  The platform constants satisfy
`8 <= TASK_SIZE < 2 ^ 64` and `TASK_SIZE - 8 + sizeof(struct signal_frame_64) <= 2 ^ 64`. -/
theorem size_test_true_when_stack_pointer_decreases (env : Env) (st : State)
    (h8 : 8 ≤ env.TASK_SIZE) (hT : env.TASK_SIZE < U64)
    (hplat : env.TASK_SIZE - 8 + env.sizeof_signal_frame_64 ≤ U64)
    (hread : (rd_backlink env st).ret = 0)
    (hlt : (rd_backlink env st).val < st.sp) :
    size_test env st.sp (rd_backlink env st).val = true ∧
    (tramp_test env st.sp (rd_saved_ip env st).val st.lr st.level = true →
      (sane_signal_64_frame env (rd_saved_ip env st).k st.sp).1 = true →
      (classify env st).1 = true) := by
  have hg := read_user_stack_64_guard_of_ok env st.k st.sp st.next_sp hread
  rw [wrap_task_size env h8 hT] at hg
  have hs : size_test env st.sp (rd_backlink env st).val = true :=
    size_test_of_lt env st.sp _ (by omega) (by omega) hlt
  refine ⟨hs, fun ht hsane => ?_⟩
  unfold classify
  rw [signal_frame_test_true_iff]
  exact ⟨hs, ht, hsane⟩

/-- C8, amended: whenever the segment at `sp` is classified as a signal frame,
the candidate instruction pointer equals `sp + offsetof(tramp)`, or it equals
the registered vdso trampoline address, or the nesting level is at most 1 and
the link register equals one of these two addresses. -/
theorem signal_frame_test_address_cases (env : Env) (k : Kernel)
    (sp next_sp next_ip lr : Nat) (level : Int)
    (h : (signal_frame_test env k sp next_sp next_ip lr level).1 = true) :
    next_ip = wrap (sp + env.off_tramp) ∨
    (env.vdso64_rt_sigtramp ≠ 0 ∧ env.vdso_base ≠ 0 ∧
      next_ip = wrap (env.vdso_base + env.vdso64_rt_sigtramp)) ∨
    (level ≤ 1 ∧
      (lr = wrap (sp + env.off_tramp) ∨
        (env.vdso64_rt_sigtramp ≠ 0 ∧ env.vdso_base ≠ 0 ∧
          lr = wrap (env.vdso_base + env.vdso64_rt_sigtramp)))) := by
  rw [signal_frame_test_true_iff] at h
  have ht := h.2.1
  unfold tramp_test at ht
  simp only [Bool.or_eq_true, Bool.and_eq_true, decide_eq_true_eq,
    is_sigreturn_64_address_iff] at ht
  rcases ht with h1 | ⟨hl, h2⟩
  · rcases h1 with h1 | h1
    · exact Or.inl h1
    · exact Or.inr (Or.inl h1)
  · exact Or.inr (Or.inr ⟨hl, h2⟩)

/-! ## Walker: one iteration -/

theorem signal_step_ip (env : Env) (st : State) :
    (signal_step env st).entry.ip
      = st.entry.ip ++ [env.PERF_CONTEXT_USER, (rd_nip env st).val] := by
  simp [signal_step, perf_callchain_store, perf_callchain_store_context]

theorem signal_step_max_stack (env : Env) (st : State) :
    (signal_step env st).entry.max_stack = st.entry.max_stack := rfl

theorem normal_step_ip (env : Env) (st : State) :
    (normal_step env st).entry.ip = st.entry.ip ++ [return_address env st] := rfl

theorem normal_step_max_stack (env : Env) (st : State) :
    (normal_step env st).entry.max_stack = st.entry.max_stack := rfl

theorem loop_body_cases (env : Env) (st : State) :
    (∃ st1, loop_body env st = Outcome.ret st1 ∧ st1.entry = st.entry) ∨
    (loop_body env st = Outcome.cont (signal_step env st) ∧ (classify env st).1 = true) ∨
    (loop_body env st = Outcome.cont (normal_step env st) ∧ (classify env st).1 = false) := by
  unfold loop_body
  split_ifs with h1 h2 h3 h4 h5 h6 h7
  · exact Or.inl ⟨_, rfl, rfl⟩
  · exact Or.inl ⟨_, rfl, rfl⟩
  · exact Or.inl ⟨_, rfl, rfl⟩
  · exact Or.inl ⟨_, rfl, rfl⟩
  · exact Or.inl ⟨_, rfl, rfl⟩
  · exact Or.inl ⟨_, rfl, rfl⟩
  · exact Or.inr (Or.inl ⟨rfl, h4⟩)
  · exact Or.inr (Or.inr ⟨rfl, by simpa using h4⟩)

theorem loop_body_normal (env : Env) (st : State)
    (hsp : env.invalid_user_sp st.sp = false)
    (h1 : (rd_backlink env st).ret = 0) (h2 : (rd_saved_ip env st).ret = 0)
    (hc : (classify env st).1 = false) :
    loop_body env st = Outcome.cont (normal_step env st) := by
  unfold loop_body
  simp [hsp, h1, h2, hc]

theorem loop_body_signal (env : Env) (st : State)
    (hsp : env.invalid_user_sp st.sp = false)
    (h1 : (rd_backlink env st).ret = 0) (h2 : (rd_saved_ip env st).ret = 0)
    (hc : (classify env st).1 = true)
    (ha : (rd_nip env st).ret = 0) (hb : (rd_lnk env st).ret = 0)
    (hr : (rd_r1 env st).ret = 0) :
    loop_body env st = Outcome.cont (signal_step env st) := by
  unfold loop_body
  simp [hsp, h1, h2, hc, ha, hb, hr]

theorem loop_body_ret_of_read_fails (env : Env) (st : State) (h : read_fails env st) :
    ∃ st1, loop_body env st = Outcome.ret st1 ∧ st1.entry = st.entry := by
  obtain ⟨hsp, h⟩ := h
  unfold loop_body
  rcases h with h | ⟨h1, _, h2⟩ | ⟨h1, h2, hc, h⟩
  · simp [hsp, h]
  · simp [hsp, h1, h2]
  · rcases h with ha | ⟨ha, hb⟩ | ⟨ha, hb, hr⟩
    · simp [hsp, h1, h2, hc, ha]
    · simp [hsp, h1, h2, hc, ha, hb]
    · simp [hsp, h1, h2, hc, ha, hb, hr]

/-- Every outcome of the body extends the entry sequence by zero, one or two
entries and keeps `max_stack`. -/
theorem loop_body_cont_entry (env : Env) (st st1 : State)
    (h : loop_body env st = Outcome.cont st1) :
    st1.entry.max_stack = st.entry.max_stack ∧
    (st1.entry.ip = st.entry.ip ++ [env.PERF_CONTEXT_USER, (rd_nip env st).val] ∨
      st1.entry.ip = st.entry.ip ++ [return_address env st]) := by
  rcases loop_body_cases env st with ⟨s, hs, _⟩ | ⟨hs, _⟩ | ⟨hs, _⟩
  · rw [hs] at h
    cases h
  · rw [hs] at h
    injection h with h
    subst h
    exact ⟨rfl, Or.inl (signal_step_ip env st)⟩
  · rw [hs] at h
    injection h with h
    subst h
    exact ⟨rfl, Or.inr rfl⟩

theorem loop_body_ret_entry (env : Env) (st st1 : State)
    (h : loop_body env st = Outcome.ret st1) : st1.entry = st.entry := by
  rcases loop_body_cases env st with ⟨s, hs, he⟩ | ⟨hs, _⟩ | ⟨hs, _⟩
  · rw [hs] at h
    injection h with h
    subst h
    exact he
  · rw [hs] at h
    cases h
  · rw [hs] at h
    cases h

/-! ## Walker: the loop -/

theorem walk_loop_succ (env : Env) (fuel : Nat) (st : State) :
    walk_loop env (fuel + 1) st =
      if st.entry.nr < st.entry.max_stack then
        match loop_body env st with
        | Outcome.ret st1 => some st1
        | Outcome.cont st1 => walk_loop env fuel st1
      else some st := rfl

theorem walk_loop_done (env : Env) (fuel : Nat) (st : State)
    (h : ¬ st.entry.nr < st.entry.max_stack) : walk_loop env fuel st = some st := by
  cases fuel with
  | zero => simp [walk_loop, h]
  | succ n => simp [walk_loop, h]

theorem walk_loop_ret (env : Env) (fuel : Nat) (st st1 : State)
    (h : st.entry.nr < st.entry.max_stack) (hb : loop_body env st = Outcome.ret st1) :
    walk_loop env (fuel + 1) st = some st1 := by
  rw [walk_loop_succ, if_pos h, hb]

theorem walk_loop_cont (env : Env) (fuel : Nat) (st st1 : State)
    (h : st.entry.nr < st.entry.max_stack) (hb : loop_body env st = Outcome.cont st1) :
    walk_loop env (fuel + 1) st = walk_loop env fuel st1 := by
  rw [walk_loop_succ, if_pos h, hb]

/-- The loop always finishes within `max_stack - nr` executions of the body. -/
theorem walk_loop_total (env : Env) (fuel : Nat) (st : State)
    (h : st.entry.max_stack - st.entry.nr ≤ fuel) :
    ∃ st1, walk_loop env fuel st = some st1 := by
  induction fuel generalizing st with
  | zero => exact ⟨st, walk_loop_done env 0 st (by omega)⟩
  | succ n ih =>
    by_cases hc : st.entry.nr < st.entry.max_stack
    · cases hb : loop_body env st with
      | ret s => exact ⟨s, walk_loop_ret env n st s hc hb⟩
      | cont s =>
        rw [walk_loop_cont env n st s hc hb]
        apply ih
        have := loop_body_cont_entry env st s hb
        have hlen : st.entry.nr < s.entry.nr := by
          unfold Entry.nr
          rcases this.2 with h2 | h2 <;> rw [h2] <;> simp
        rw [this.1]
        omega
    · exact ⟨st, walk_loop_done env (n + 1) st hc⟩

/-- The result does not depend on the bound once the loop has finished. -/
theorem walk_loop_mono (env : Env) (fuel extra : Nat) (st st1 : State)
    (h : walk_loop env fuel st = some st1) : walk_loop env (fuel + extra) st = some st1 := by
  induction fuel generalizing st with
  | zero =>
    by_cases hc : st.entry.nr < st.entry.max_stack
    · simp [walk_loop, hc] at h
    · rw [walk_loop_done env 0 st hc] at h
      rw [walk_loop_done env _ st hc]
      exact h
  | succ n ih =>
    rw [show n + 1 + extra = (n + extra) + 1 by omega]
    by_cases hc : st.entry.nr < st.entry.max_stack
    · cases hb : loop_body env st with
      | ret s =>
        rw [walk_loop_ret env n st s hc hb] at h
        rw [walk_loop_ret env _ st s hc hb]
        exact h
      | cont s =>
        rw [walk_loop_cont env n st s hc hb] at h
        rw [walk_loop_cont env _ st s hc hb]
        exact ih s h
    · rw [walk_loop_done env _ st hc] at h
      rw [walk_loop_done env _ st hc]
      exact h

/-- Entries are only appended by the loop, and `max_stack` is kept. -/
theorem walk_loop_extends (env : Env) (fuel : Nat) (st st1 : State)
    (h : walk_loop env fuel st = some st1) :
    st.entry.ip <+: st1.entry.ip ∧ st1.entry.max_stack = st.entry.max_stack := by
  induction fuel generalizing st with
  | zero =>
    by_cases hc : st.entry.nr < st.entry.max_stack
    · simp [walk_loop, hc] at h
    · rw [walk_loop_done env 0 st hc] at h
      injection h with h
      subst h
      exact ⟨List.prefix_refl _, rfl⟩
  | succ n ih =>
    by_cases hc : st.entry.nr < st.entry.max_stack
    · cases hb : loop_body env st with
      | ret s =>
        rw [walk_loop_ret env n st s hc hb] at h
        injection h with h
        subst h
        rw [loop_body_ret_entry env st s hb]
        exact ⟨List.prefix_refl _, rfl⟩
      | cont s =>
        rw [walk_loop_cont env n st s hc hb] at h
        have h1 := ih s h
        have h2 := loop_body_cont_entry env st s hb
        refine ⟨?_, by rw [h1.2, h2.1]⟩
        refine List.IsPrefix.trans ?_ h1.1
        rcases h2.2 with h3 | h3 <;> rw [h3] <;> exact List.prefix_append _ _
    · rw [walk_loop_done env _ st hc] at h
      injection h with h
      subst h
      exact ⟨List.prefix_refl _, rfl⟩

/-! ## Walker: classification of a candidate that fails the structural check -/

theorem sane_signal_64_frame_false_of_mismatch (env : Env) (k : Kernel) (sp : Nat)
    (hbad : (rd_pinfo env k sp).ret ≠ 0 ∨ (rd_puc env k sp).ret ≠ 0 ∨
      (rd_pinfo env k sp).val ≠ wrap (sp + env.off_info) ∨
      (rd_puc env k sp).val ≠ wrap (sp + env.off_uc)) :
    (sane_signal_64_frame env k sp).1 = false := by
  unfold sane_signal_64_frame
  split_ifs with h1 h2
  · rfl
  · rfl
  · rcases hbad with h | h | h | h
    · exact absurd h h1
    · exact absurd h h2
    · simp [h]
    · simp [h]

theorem classify_false_of_mismatch (env : Env) (st : State)
    (hbad : (rd_pinfo env (rd_saved_ip env st).k st.sp).ret ≠ 0 ∨
      (rd_puc env (rd_saved_ip env st).k st.sp).ret ≠ 0 ∨
      (rd_pinfo env (rd_saved_ip env st).k st.sp).val ≠ wrap (st.sp + env.off_info) ∨
      (rd_puc env (rd_saved_ip env st).k st.sp).val ≠ wrap (st.sp + env.off_uc)) :
    (classify env st).1 = false := by
  have hs := sane_signal_64_frame_false_of_mismatch env (rd_saved_ip env st).k st.sp hbad
  cases hc : (classify env st).1 with
  | false => rfl
  | true =>
    unfold classify at hc
    rw [signal_frame_test_true_iff] at hc
    rw [hs] at hc
    exact absurd hc.2.2 (by simp)

theorem classify_kernel_of_candidate (env : Env) (st : State)
    (hsize : size_test env st.sp (rd_backlink env st).val = true)
    (htramp : tramp_test env st.sp (rd_saved_ip env st).val st.lr st.level = true) :
    (classify env st).2 = (sane_signal_64_frame env (rd_saved_ip env st).k st.sp).2 := by
  unfold classify signal_frame_test
  simp [hsize, htramp]

/-- C4: when the size test and the trampoline-address test pass at `sp` but the
structural confirmation fails (a failed read of `pinfo` or `puc`, or a value
different from the address of `info`, respectively `uc`), the segment is not
classified as a signal frame: the iteration is the normal-frame one (return
address appended, `level` incremented, `sp := next_sp`), nothing else is
appended, and the kernel state after the iteration is the one left by
`sane_signal_64_frame`, so the register-save area is not read. -/
theorem mismatched_candidate_takes_normal_branch (env : Env) (st : State)
    (hsp : env.invalid_user_sp st.sp = false)
    (h1 : (rd_backlink env st).ret = 0) (h2 : (rd_saved_ip env st).ret = 0)
    (hsize : size_test env st.sp (rd_backlink env st).val = true)
    (htramp : tramp_test env st.sp (rd_saved_ip env st).val st.lr st.level = true)
    (hbad : (rd_pinfo env (rd_saved_ip env st).k st.sp).ret ≠ 0 ∨
      (rd_puc env (rd_saved_ip env st).k st.sp).ret ≠ 0 ∨
      (rd_pinfo env (rd_saved_ip env st).k st.sp).val ≠ wrap (st.sp + env.off_info) ∨
      (rd_puc env (rd_saved_ip env st).k st.sp).val ≠ wrap (st.sp + env.off_uc)) :
    (classify env st).1 = false ∧
    loop_body env st = Outcome.cont (normal_step env st) ∧
    (normal_step env st).entry.ip
      = st.entry.ip ++ [if st.level = 0 then st.lr else (rd_saved_ip env st).val] ∧
    (normal_step env st).level = st.level + 1 ∧
    (normal_step env st).sp = (rd_backlink env st).val ∧
    (normal_step env st).k = (sane_signal_64_frame env (rd_saved_ip env st).k st.sp).2 := by
  have hc := classify_false_of_mismatch env st hbad
  refine ⟨hc, loop_body_normal env st hsp h1 h2 hc, rfl, rfl, rfl, ?_⟩
  exact classify_kernel_of_candidate env st hsize htramp

theorem loop_body_of_invalid_sp (env : Env) (st : State)
    (h : env.invalid_user_sp st.sp = true) : loop_body env st = Outcome.ret st := by
  unfold loop_body
  rw [if_pos h]

theorem loop_body_ret_cause (env : Env) (s s1 : State)
    (h : loop_body env s = Outcome.ret s1) :
    env.invalid_user_sp s.sp = true ∨ read_fails env s := by
  by_cases hinv : env.invalid_user_sp s.sp = true
  · exact Or.inl hinv
  · right
    have hinv2 : env.invalid_user_sp s.sp = false := by simpa using hinv
    refine ⟨hinv2, ?_⟩
    by_cases h1 : (rd_backlink env s).ret = 0
    · by_cases h2 : (rd_saved_ip env s).ret = 0
      · by_cases hc : (classify env s).1 = true
        · by_cases ha : (rd_nip env s).ret = 0
          · by_cases hb : (rd_lnk env s).ret = 0
            · by_cases hr : (rd_r1 env s).ret = 0
              · rw [loop_body_signal env s hinv2 h1 h2 hc ha hb hr] at h
                cases h
              · exact Or.inr (Or.inr ⟨h1, h2, hc, Or.inr (Or.inr ⟨ha, hb, hr⟩)⟩)
            · exact Or.inr (Or.inr ⟨h1, h2, hc, Or.inr (Or.inl ⟨ha, hb⟩)⟩)
          · exact Or.inr (Or.inr ⟨h1, h2, hc, Or.inl ha⟩)
        · rw [loop_body_normal env s hinv2 h1 h2 (by simpa using hc)] at h
          cases h
      · refine Or.inr (Or.inl ⟨h1, ?_, h2⟩)
        by_contra hl
        apply h2
        unfold rd_saved_ip
        rw [if_neg hl]
    · exact Or.inl h1

/-- The loop ends in exactly one of two ways: at its head with
`nr < max_stack` false, or by a `return` of the body, which happens only for an
implausible stack pointer or a failed read. -/
theorem walk_loop_stop_cause (env : Env) (fuel : Nat) (s s1 : State)
    (h : walk_loop env fuel s = some s1) :
    ∃ last, Reaches env s last ∧
      ((¬ last.entry.nr < last.entry.max_stack ∧ s1 = last) ∨
       (last.entry.nr < last.entry.max_stack ∧ loop_body env last = Outcome.ret s1 ∧
         (env.invalid_user_sp last.sp = true ∨ read_fails env last))) := by
  induction fuel generalizing s with
  | zero =>
    by_cases hc : s.entry.nr < s.entry.max_stack
    · simp [walk_loop, hc] at h
    · rw [walk_loop_done env 0 s hc] at h
      injection h with h
      exact ⟨s, Reaches.refl s, Or.inl ⟨hc, h.symm⟩⟩
  | succ n ih =>
    by_cases hc : s.entry.nr < s.entry.max_stack
    · cases hb : loop_body env s with
      | ret t =>
        rw [walk_loop_ret env n s t hc hb] at h
        injection h with h
        subst h
        exact ⟨s, Reaches.refl s, Or.inr ⟨hc, hb, loop_body_ret_cause env s t hb⟩⟩
      | cont t =>
        rw [walk_loop_cont env n s t hc hb] at h
        obtain ⟨last, hr, hl⟩ := ih t h
        exact ⟨last, Reaches.step s t last hc hb hr, hl⟩
    · rw [walk_loop_done env _ s hc] at h
      injection h with h
      exact ⟨s, Reaches.refl s, Or.inl ⟨hc, h.symm⟩⟩

/-- C9, amended: when a signal-frame candidate (size test and trampoline-address
test passed) fails the `pinfo`/`puc` self-consistency check, the walk does not
stop there: the iteration is handled as a normal frame, the loop goes on from
the state after that normal-frame step, and the chain finally returned starts
with the chain built so far followed by the return address of that step.  The
walk stops only later, at a loop head reached from the state after that step,
and only because `nr < max_stack` is false there, or because the body returns
there, which it does only for an implausible stack pointer or a failed read of
the back-link, the saved instruction pointer or a signal-frame register. -/
theorem mismatched_candidate_walk_continues (env : Env) (st : State)
    (hnr : st.entry.nr < st.entry.max_stack)
    (hsp : env.invalid_user_sp st.sp = false)
    (h1 : (rd_backlink env st).ret = 0) (h2 : (rd_saved_ip env st).ret = 0)
    (hsize : size_test env st.sp (rd_backlink env st).val = true)
    (htramp : tramp_test env st.sp (rd_saved_ip env st).val st.lr st.level = true)
    (hbad : (rd_pinfo env (rd_saved_ip env st).k st.sp).ret ≠ 0 ∨
      (rd_puc env (rd_saved_ip env st).k st.sp).ret ≠ 0 ∨
      (rd_pinfo env (rd_saved_ip env st).k st.sp).val ≠ wrap (st.sp + env.off_info) ∨
      (rd_puc env (rd_saved_ip env st).k st.sp).val ≠ wrap (st.sp + env.off_uc)) :
    (∀ fuel, walk_loop env (fuel + 1) st = walk_loop env fuel (normal_step env st)) ∧
    (∃ st1, walk_loop env (st.entry.max_stack - st.entry.nr) st = some st1 ∧
      st.entry.ip ++ [if st.level = 0 then st.lr else (rd_saved_ip env st).val]
        <+: st1.entry.ip) ∧
    (∀ fuel st1, walk_loop env fuel st = some st1 →
      ∃ last, Reaches env (normal_step env st) last ∧
        ((¬ last.entry.nr < last.entry.max_stack ∧ st1 = last) ∨
         (last.entry.nr < last.entry.max_stack ∧ loop_body env last = Outcome.ret st1 ∧
           (env.invalid_user_sp last.sp = true ∨ read_fails env last)))) ∧
    (∀ s : State, (∃ s1, loop_body env s = Outcome.ret s1) ↔
      (env.invalid_user_sp s.sp = true ∨ read_fails env s)) := by
  have _hs := hsize
  have _ht := htramp
  have hc := classify_false_of_mismatch env st hbad
  have hb := loop_body_normal env st hsp h1 h2 hc
  have hstep : ∀ fuel, walk_loop env (fuel + 1) st = walk_loop env fuel (normal_step env st) :=
    fun fuel => walk_loop_cont env fuel st _ hnr hb
  refine ⟨hstep, ?_, ?_, ?_⟩
  · obtain ⟨st1, hst1⟩ := walk_loop_total env (st.entry.max_stack - st.entry.nr) st (le_refl _)
    refine ⟨st1, hst1, ?_⟩
    obtain ⟨n, hn⟩ : ∃ n, st.entry.max_stack - st.entry.nr = n + 1 :=
      ⟨_, (Nat.succ_pred_eq_of_pos (by omega)).symm⟩
    rw [hn, hstep n] at hst1
    exact (walk_loop_extends env n _ st1 hst1).1
  · intro fuel st1 hw
    cases fuel with
    | zero => simp [walk_loop, hnr] at hw
    | succ n =>
      rw [hstep n] at hw
      exact walk_loop_stop_cause env n _ st1 hw
  · intro s
    constructor
    · rintro ⟨s1, hs1⟩
      exact loop_body_ret_cause env s s1 hs1
    · rintro (hinv | hrf)
      · exact ⟨s, loop_body_of_invalid_sp env s hinv⟩
      · obtain ⟨s1, hs1, _⟩ := loop_body_ret_of_read_fails env s hrf
        exact ⟨s1, hs1⟩

theorem reaches_extends (env : Env) (st st1 : State) (h : Reaches env st st1) :
    st.entry.ip <+: st1.entry.ip := by
  induction h with
  | refl st => exact List.prefix_refl _
  | step st st1 st2 _ hbody _ ih =>
    refine List.IsPrefix.trans ?_ ih
    rcases (loop_body_cont_entry env st st1 hbody).2 with h3 | h3 <;> rw [h3] <;>
      exact List.prefix_append _ _

/-- C6: entries are only appended (the sequence at the head of the loop is a
prefix of the sequence at every later arrival at the head, of the sequence after
the iteration, and of the one finally returned), and an iteration in which a
read fails (back-link, saved instruction pointer at `level > 0`, or one of the
three signal-frame register reads) returns with the entry sequence exactly as it
was at the start of that iteration, which is then the result of the walk; so a
signal frame whose `PT_LNK` or `PT_R1` read fails adds no marker. -/
theorem entries_append_only_and_failed_read_stops (env : Env) (st : State) :
    (∀ st1, Reaches env st st1 → st.entry.ip <+: st1.entry.ip) ∧
    (∀ st1, (loop_body env st = Outcome.ret st1 ∨ loop_body env st = Outcome.cont st1) →
      st.entry.ip <+: st1.entry.ip) ∧
    (∀ fuel st1, walk_loop env fuel st = some st1 → st.entry.ip <+: st1.entry.ip) ∧
    (read_fails env st →
      ∃ st1, loop_body env st = Outcome.ret st1 ∧ st1.entry = st.entry ∧
        (st.entry.nr < st.entry.max_stack → ∀ fuel, walk_loop env (fuel + 1) st = some st1)) := by
  refine ⟨fun st1 h => reaches_extends env st st1 h, ?_, ?_, ?_⟩
  · intro st1 h
    rcases h with h | h
    · rw [loop_body_ret_entry env st st1 h]
    · rcases (loop_body_cont_entry env st st1 h).2 with h3 | h3 <;> rw [h3] <;>
        exact List.prefix_append _ _
  · intro fuel st1 h
    exact (walk_loop_extends env fuel st st1 h).1
  · intro h
    obtain ⟨st1, hb, he⟩ := loop_body_ret_of_read_fails env st h
    exact ⟨st1, hb, he, fun hnr fuel => walk_loop_ret env fuel st st1 hnr hb⟩

/-! ## Walker: a chain of normal frames -/

theorem chain_walk (env : Env) (sp w : Nat → Nat) (N lr ip0 : Nat)
    (hvalid : ∀ i, i < N → env.invalid_user_sp (sp i) = false)
    (hlink : ∀ i, i < N → ∀ k1 d, (read_user_stack_64 env k1 (sp i) d).ret = 0 ∧
      (read_user_stack_64 env k1 (sp i) d).val = sp (i + 1))
    (hip : ∀ i, 1 ≤ i → i < N → ∀ k1 d,
      (read_user_stack_64 env k1 (wrap (sp i + 16)) d).ret = 0 ∧
      (read_user_stack_64 env k1 (wrap (sp i + 16)) d).val = w i)
    (hroot : env.invalid_user_sp (sp N) = true)
    (hnosig : ∀ i, i < N → ∀ k1,
      (signal_frame_test env k1 (sp i) (sp (i + 1)) (if i = 0 then ip0 else w i) lr
        (i : Int)).1 = false) :
    ∀ (n j : Nat) (st : State) (fuel : Nat), j + n = N → st.sp = sp j →
      st.level = (j : Int) → st.lr = lr → (j = 0 → st.next_ip = ip0) →
      st.entry.ip.length + n ≤ st.entry.max_stack → n + 1 ≤ fuel →
      ∃ st1, walk_loop env fuel st = some st1 ∧
        st1.entry.ip
          = st.entry.ip ++ (List.range' j n).map (fun i => if i = 0 then lr else w i) ∧
        st1.sp = sp N := by
  intro n
  induction n with
  | zero =>
    intro j st fuel hj hsp _ _ _ _ hfuel
    obtain ⟨m, rfl⟩ : ∃ m, fuel = m + 1 := ⟨fuel - 1, by omega⟩
    have hjN : j = N := by omega
    subst hjN
    by_cases hc : st.entry.nr < st.entry.max_stack
    · have hb : loop_body env st = Outcome.ret st := by
        unfold loop_body
        rw [hsp, hroot]
        simp
      exact ⟨st, walk_loop_ret env m st st hc hb, by simp, hsp⟩
    · exact ⟨st, walk_loop_done env _ st hc, by simp, hsp⟩
  | succ n ih =>
    intro j st fuel hj hsp hlevel hlr hip0 hlen hfuel
    obtain ⟨m, rfl⟩ : ∃ m, fuel = m + 1 := ⟨fuel - 1, by omega⟩
    have hjN : j < N := by omega
    have hc : st.entry.nr < st.entry.max_stack := by
      unfold Entry.nr
      omega
    have hinv : env.invalid_user_sp st.sp = false := by rw [hsp]; exact hvalid j hjN
    have hbl : (rd_backlink env st).ret = 0 ∧ (rd_backlink env st).val = sp (j + 1) := by
      unfold rd_backlink
      rw [hsp]
      exact hlink j hjN _ _
    have hsi : (rd_saved_ip env st).ret = 0 ∧
        (rd_saved_ip env st).val = (if j = 0 then ip0 else w j) := by
      unfold rd_saved_ip
      by_cases hj0 : j = 0
      · have : ¬ st.level > 0 := by rw [hlevel, hj0]; simp
        rw [if_neg this, if_pos hj0]
        exact ⟨rfl, hip0 hj0⟩
      · have : st.level > 0 := by rw [hlevel]; exact_mod_cast Nat.pos_of_ne_zero hj0
        rw [if_pos this, if_neg hj0, hsp]
        exact hip j (by omega) hjN _ _
    have hcl : (classify env st).1 = false := by
      unfold classify
      rw [hsp, hbl.2, hsi.2, hlr, hlevel]
      exact hnosig j hjN _
    have hb := loop_body_normal env st hinv hbl.1 hsi.1 hcl
    have hra : return_address env st = (if j = 0 then lr else w j) := by
      unfold return_address
      by_cases hj0 : j = 0
      · have : st.level = 0 := by rw [hlevel, hj0]; rfl
        rw [if_pos this, if_pos hj0, hlr]
      · have : ¬ st.level = 0 := by rw [hlevel]; exact_mod_cast hj0
        rw [if_neg this, if_neg hj0, hsi.2, if_neg hj0]
    have hnext := ih (j + 1) (normal_step env st) m (by omega) hbl.2
      (by simp [normal_step, hlevel]) hlr (by omega)
      (by rw [normal_step_ip, normal_step_max_stack]; simp; omega) (by omega)
    obtain ⟨st1, h1, h2, h3⟩ := hnext
    refine ⟨st1, ?_, ?_, h3⟩
    · rw [walk_loop_cont env m st _ hc hb]
      exact h1
    · rw [h2, normal_step_ip, hra]
      simp [List.range'_succ]

/-- C1: for a chain of stack pointers `sp 0 .. sp N` in which `sp 0 .. sp (N-1)`
pass the plausibility check and are readable with the word at `sp i` equal to
`sp (i+1)`, the word `w i` at `sp i + 16` is readable for `1 <= i < N`, `sp N`
fails the plausibility check, no segment is recognised as a signal frame and
`max_stack > N`, the walk started on an empty sequence returns exactly the
`N + 1` entries `ip, lr, w 1, ..., w (N-1)` and ends at `sp N`. -/
theorem normal_chain_reconstructed (env : Env) (k : Kernel) (regs : pt_regs)
    (max_stack N : Nat) (sp w : Nat → Nat)
    (hstart : regs.gpr 1 = sp 0)
    (hvalid : ∀ i, i < N → env.invalid_user_sp (sp i) = false)
    (hlink : ∀ i, i < N → ∀ k1 d, (read_user_stack_64 env k1 (sp i) d).ret = 0 ∧
      (read_user_stack_64 env k1 (sp i) d).val = sp (i + 1))
    (hip : ∀ i, 1 ≤ i → i < N → ∀ k1 d,
      (read_user_stack_64 env k1 (wrap (sp i + 16)) d).ret = 0 ∧
      (read_user_stack_64 env k1 (wrap (sp i + 16)) d).val = w i)
    (hroot : env.invalid_user_sp (sp N) = true)
    (hnosig : ∀ i, i < N → ∀ k1,
      (signal_frame_test env k1 (sp i) (sp (i + 1))
        (if i = 0 then env.perf_instruction_pointer regs else w i) regs.link (i : Int)).1
        = false)
    (hmax : N < max_stack) :
    ∃ st, perf_callchain_user_64 env k { ip := [], max_stack := max_stack } regs = some st ∧
      st.entry.ip = env.perf_instruction_pointer regs ::
        (List.range N).map (fun i => if i = 0 then regs.link else w i) ∧
      st.entry.ip.length = N + 1 ∧
      st.sp = sp N := by
  have h := chain_walk env sp w N regs.link (env.perf_instruction_pointer regs)
    hvalid hlink hip hroot hnosig N 0
    (init_state env k { ip := [], max_stack := max_stack } regs) max_stack
    (by omega) hstart rfl rfl (fun _ => rfl)
    (by simp [init_state, perf_callchain_store]; omega) (by omega)
  obtain ⟨st, h1, h2, h3⟩ := h
  refine ⟨st, h1, ?_, ?_, h3⟩
  · rw [h2, List.range_eq_range']
    simp [init_state, perf_callchain_store]
  · rw [h2]
    simp [init_state, perf_callchain_store]

/-! ## Concrete runs -/

/-- Witness of C1: the three-frame stack `demo_chain` yields the four entries
`ip, lr, 0xAAAA, 0xBBBB`. -/
theorem normal_chain_reconstructed_witness :
    ∃ st, perf_callchain_user_64 chain_env k0 { ip := [], max_stack := 10 }
        (demo_regs 0x111 0x222 0x1000) = some st ∧
      st.entry.ip = [0x111, 0x222, 0xAAAA, 0xBBBB] ∧
      st.entry.ip.length = 3 + 1 ∧
      st.sp = 0 := by
  have h := normal_chain_reconstructed chain_env k0 (demo_regs 0x111 0x222 0x1000) 10 3
    demo_sp demo_w rfl
    (by intro i hi; interval_cases i <;> rfl)
    (by intro i hi k1 d; interval_cases i <;> exact ⟨rfl, rfl⟩)
    (by intro i h1 hi k1 d; interval_cases i <;> exact ⟨rfl, rfl⟩)
    rfl
    (by intro i hi k1; interval_cases i <;> rfl)
    (by decide)
  obtain ⟨st, h1, h2, h3, h4⟩ := h
  exact ⟨st, h1, by rw [h2]; rfl, h3, h4⟩

/-- Witness of C4: in `mismatch_env` the frame at `0x1000` passes the size and
trampoline tests, its `pinfo` field is wrong, and the iteration is a
normal-frame one. -/
theorem mismatched_candidate_takes_normal_branch_witness :
    (classify mismatch_env mismatch_state).1 = false ∧
    loop_body mismatch_env mismatch_state
      = Outcome.cont (normal_step mismatch_env mismatch_state) ∧
    (normal_step mismatch_env mismatch_state).entry.ip = [0x1000 + 1840] ++ [0x222] ∧
    (normal_step mismatch_env mismatch_state).level = 0 + 1 ∧
    (normal_step mismatch_env mismatch_state).sp = 0x3000 :=
  have h := mismatched_candidate_takes_normal_branch mismatch_env mismatch_state
    (by decide) (by decide) (by decide) (by decide) (by decide)
    (Or.inr (Or.inr (Or.inl (by decide))))
  ⟨h.1, h.2.1, h.2.2.1, h.2.2.2.1, h.2.2.2.2.1⟩

/-- Witness of C6: in `nolnk_env` the signal frame is recognised, the read of
`gp_regs[PT_LNK]` fails, and the walk returns the single initial entry. -/
theorem entries_append_only_and_failed_read_stops_witness :
    ∃ st1, loop_body nolnk_env nolnk_state = Outcome.ret st1 ∧
      st1.entry = nolnk_state.entry ∧
      (nolnk_state.entry.nr < nolnk_state.entry.max_stack →
        ∀ fuel, walk_loop nolnk_env (fuel + 1) nolnk_state = some st1) :=
  (entries_append_only_and_failed_read_stops nolnk_env nolnk_state).2.2.2
    ⟨by decide, Or.inr (Or.inr ⟨by decide, by decide, by decide,
      Or.inr (Or.inl ⟨by decide, by decide⟩)⟩)⟩

/-- Witness of C7: in `altstack_env` the back-link `0x1000` read at `0x3000` is
smaller than the stack pointer, the size test is true and the frame is
classified as a signal frame. -/
theorem size_test_true_when_stack_pointer_decreases_witness :
    (rd_backlink altstack_env altstack_state).val < altstack_state.sp ∧
    size_test altstack_env altstack_state.sp (rd_backlink altstack_env altstack_state).val
      = true ∧
    (classify altstack_env altstack_state).1 = true :=
  have h := size_test_true_when_stack_pointer_decreases altstack_env altstack_state
    (by decide) (by decide) (by decide) (by decide) (by decide)
  ⟨by decide, h.1, h.2 (by decide) (by decide)⟩

/-- Counterexample to C8 as stated: in `vdso_env`, sampled at the vdso trampoline
address with level 0, the frame is classified as a signal frame although the
candidate instruction pointer is not `sp + offsetof(tramp)` and the link
register is not the vdso trampoline address. -/
theorem signal_frame_by_vdso_instruction_pointer :
    (classify vdso_env vdso_state).1 = true ∧
    loop_body vdso_env vdso_state = Outcome.cont (signal_step vdso_env vdso_state) ∧
    ¬ ((rd_saved_ip vdso_env vdso_state).val = wrap (vdso_state.sp + vdso_env.off_tramp) ∨
       ((vdso_state.level = 0 ∨ vdso_state.level = 1) ∧
         vdso_state.lr = wrap (vdso_env.vdso_base + vdso_env.vdso64_rt_sigtramp))) := by
  decide

/-- Witness of C8, amended: the classification in `vdso_env` falls under the
listed cases. -/
theorem signal_frame_test_address_cases_witness :
    (0x70000400 = wrap (0x1000 + vdso_env.off_tramp)) ∨
    (vdso_env.vdso64_rt_sigtramp ≠ 0 ∧ vdso_env.vdso_base ≠ 0 ∧
      0x70000400 = wrap (vdso_env.vdso_base + vdso_env.vdso64_rt_sigtramp)) ∨
    ((0 : Int) ≤ 1 ∧
      (0x222 = wrap (0x1000 + vdso_env.off_tramp) ∨
        (vdso_env.vdso64_rt_sigtramp ≠ 0 ∧ vdso_env.vdso_base ≠ 0 ∧
          0x222 = wrap (vdso_env.vdso_base + vdso_env.vdso64_rt_sigtramp)))) :=
  signal_frame_test_address_cases vdso_env k0 0x1000 0x3000 0x70000400 0x222 0 (by decide)

/-- Counterexample to C9 as stated: in `mismatch_env` the candidate at `0x1000`
fails the `pinfo` check, and the walk goes on to append `lr` and `0x9999`. -/
theorem walk_goes_on_after_mismatch :
    size_test mismatch_env mismatch_state.sp
      (rd_backlink mismatch_env mismatch_state).val = true ∧
    tramp_test mismatch_env mismatch_state.sp (rd_saved_ip mismatch_env mismatch_state).val
      mismatch_state.lr mismatch_state.level = true ∧
    (sane_signal_64_frame mismatch_env (rd_saved_ip mismatch_env mismatch_state).k
      mismatch_state.sp).1 = false ∧
    mismatch_state.entry.ip = [0x1000 + 1840] ∧
    (perf_callchain_user_64 mismatch_env k0 { ip := [], max_stack := 10 }
        mismatch_regs).map (fun st => st.entry.ip)
      = some [0x1000 + 1840, 0x222, 0x9999] := by
  decide

/-- Witness of C9, amended: in `mismatch_env` the walk continues after the failed
check, the chain returned starts with `ip, lr`, and the walk stops at a later
loop head. -/
theorem mismatched_candidate_walk_continues_witness :
    (∀ fuel, walk_loop mismatch_env (fuel + 1) mismatch_state
      = walk_loop mismatch_env fuel (normal_step mismatch_env mismatch_state)) ∧
    (∃ st1, walk_loop mismatch_env
        (mismatch_state.entry.max_stack - mismatch_state.entry.nr) mismatch_state = some st1 ∧
      mismatch_state.entry.ip ++
        [if mismatch_state.level = 0 then mismatch_state.lr
         else (rd_saved_ip mismatch_env mismatch_state).val] <+: st1.entry.ip) ∧
    (∀ fuel st1, walk_loop mismatch_env fuel mismatch_state = some st1 →
      ∃ last, Reaches mismatch_env (normal_step mismatch_env mismatch_state) last ∧
        ((¬ last.entry.nr < last.entry.max_stack ∧ st1 = last) ∨
         (last.entry.nr < last.entry.max_stack ∧
           loop_body mismatch_env last = Outcome.ret st1 ∧
           (mismatch_env.invalid_user_sp last.sp = true ∨ read_fails mismatch_env last)))) :=
  have h := mismatched_candidate_walk_continues mismatch_env mismatch_state
    (by decide) (by decide) (by decide) (by decide) (by decide) (by decide)
    (Or.inr (Or.inr (Or.inl (by decide))))
  ⟨h.1, h.2.1, h.2.2.1⟩

/-! ## Reader: the two paths -/

theorem bytes_of_word_length (be : Bool) (w : Nat) : (bytes_of_word be w).length = 8 := by
  unfold bytes_of_word
  cases be <;> simp

theorem memcpy_word (kmem : Nat → Nat) (be : Bool) (dst src : Nat) :
    memcpy kmem (bytes_of_word be dst) src 8 = (List.range 8).map (fun i => kmem (src + i)) := by
  unfold memcpy
  rw [List.drop_of_length_le (by rw [bytes_of_word_length]), List.append_nil]

theorem read_user_stack_slow_of_translates (env : Env) (k : Kernel) (ptr : Nat)
    (buf : List Nat) (nb : Nat) (h : translates env ptr) :
    read_user_stack_slow env k ptr buf nb =
      { ret := 0
        buf := memcpy env.kmem buf (slow_src env ptr) nb
        k := { irq_enabled := k.irq_enabled
               trace := k.trace ++ [Event.irq_save, Event.pte_lookup env.pgd ptr,
                 Event.memcpy (slow_src env ptr) nb, Event.irq_restore k.irq_enabled] } } := by
  obtain ⟨h1, h2, h3, h4, h5⟩ := h
  unfold lookup_pte at h3 h4 h5
  unfold read_user_stack_slow slow_src lookup_pte mapping_shift
  simp [h1, h2, h3, h4, h5, local_irq_save, local_irq_restore]

theorem read_user_stack_slow_of_null_pgd (env : Env) (k : Kernel) (ptr : Nat)
    (buf : List Nat) (nb : Nat) (h : env.pgd = 0) :
    read_user_stack_slow env k ptr buf nb = { ret := EFAULT_neg, buf := buf, k := k } := by
  unfold read_user_stack_slow
  simp [h]

theorem read_user_stack_slow_of_not_translates (env : Env) (k : Kernel) (ptr : Nat)
    (buf : List Nat) (nb : Nat) (hpgd : env.pgd ≠ 0) (h : ¬ translates env ptr) :
    read_user_stack_slow env k ptr buf nb =
      { ret := EFAULT_neg
        buf := buf
        k := { irq_enabled := k.irq_enabled
               trace := k.trace ++ [Event.irq_save, Event.pte_lookup env.pgd ptr,
                 Event.irq_restore k.irq_enabled] } } := by
  unfold translates lookup_pte at h
  unfold read_user_stack_slow
  simp only [local_irq_save, local_irq_restore]
  by_cases h2 : (env.find_current_mm_pte env.pgd ptr).1 = 0
  · simp [hpgd, h2]
  · by_cases h3 : env.pte_present (env.read_pte (env.find_current_mm_pte env.pgd ptr).1) = true
    · by_cases h4 : env.pte_user (env.read_pte (env.find_current_mm_pte env.pgd ptr).1) = true
      · by_cases h5 : env.page_is_ram
            (env.pte_pfn (env.read_pte (env.find_current_mm_pte env.pgd ptr).1)) = true
        · exact absurd ⟨hpgd, h2, h3, h4, h5⟩ h
        · simp [hpgd, h2, h3, h4, h5]
      · simp [hpgd, h2, h3, h4]
    · simp [hpgd, h2, h3]

theorem read_user_stack_64_of_guard_ok (env : Env) (k : Kernel) (ptr dst : Nat)
    (hr : ptr ≤ wrap (env.TASK_SIZE + U64 - 8)) (hal : ptr &&& 7 = 0) :
    read_user_stack_64 env k ptr dst =
      match env.probe_user_read ptr with
      | some w => { ret := 0, val := w, k := { k with trace := k.trace ++ [Event.probe ptr] } }
      | none =>
        { ret := (read_user_stack_slow env { k with trace := k.trace ++ [Event.probe ptr] } ptr
                    (bytes_of_word env.big_endian dst) 8).ret
          val := word_of_bytes env.big_endian
            (read_user_stack_slow env { k with trace := k.trace ++ [Event.probe ptr] } ptr
              (bytes_of_word env.big_endian dst) 8).buf
          k := (read_user_stack_slow env { k with trace := k.trace ++ [Event.probe ptr] } ptr
                  (bytes_of_word env.big_endian dst) 8).k } := by
  unfold read_user_stack_64
  have hg : ¬ ((decide (ptr > wrap (env.TASK_SIZE + U64 - 8)) || (ptr &&& 7) != 0) = true) := by
    simp [hal]
    exact hr
  rw [if_neg hg]

theorem wrap_lt (x : Nat) : wrap x < U64 := Nat.mod_lt _ (by decide)

theorem page_offset_eq_mod (addr s : Nat) (ha : addr < U64) :
    page_offset addr s = addr % 2 ^ s := by
  unfold page_offset
  rw [Nat.one_shiftLeft]
  by_cases hs : s < 64
  · have hlt : 2 ^ s < U64 := Nat.pow_lt_pow_right (by decide) hs
    have hpos : 0 < 2 ^ s := Nat.pos_pow_of_pos s (by decide)
    rw [wrap_of_lt hlt]
    have : wrap (2 ^ s + U64 - 1) = 2 ^ s - 1 := by
      unfold wrap
      rw [show 2 ^ s + U64 - 1 = (2 ^ s - 1) + U64 by omega, Nat.add_mod_right]
      exact Nat.mod_eq_of_lt (by omega)
    rw [this, Nat.and_pow_two_sub_one_eq_mod]
  · have hle : U64 ≤ 2 ^ s := Nat.pow_le_pow_right (by decide) (by omega)
    have hz : wrap (2 ^ s) = 0 := by
      unfold wrap U64
      exact Nat.mod_eq_zero_of_dvd (Nat.pow_dvd_pow 2 (by omega))
    rw [hz, Nat.zero_add]
    have : wrap (U64 - 1) = 2 ^ 64 - 1 := by decide
    have ha2 : addr < 2 ^ 64 := ha
    rw [this, Nat.and_pow_two_sub_one_eq_mod, Nat.mod_eq_of_lt ha2,
      Nat.mod_eq_of_lt (lt_of_lt_of_le ha hle)]

/-- C11: for an 8-byte-aligned `ptr <= TASK_SIZE - 8`: when the fast path
succeeds with `w`, `read_user_stack_64` returns 0 with `w` and the only event is
the fast-path access (no page-table lookup); when the fast path fails and the
address translates, it returns 0 with the eight bytes stored at kernel address
`pfn_to_kaddr(pfn) + (ptr mod 2 ^ s)`, `s` the mapping shift; and a fast path
that shows this same word makes the call return the same code and word. -/
theorem read_user_stack_64_fast_and_slow_paths (env : Env) (k : Kernel) (ptr dst : Nat)
    (h8 : 8 ≤ env.TASK_SIZE) (hT : env.TASK_SIZE < U64)
    (hal : ptr &&& 7 = 0) (hr : ptr ≤ env.TASK_SIZE - 8) :
    (∀ w, env.probe_user_read ptr = some w →
      read_user_stack_64 env k ptr dst =
        { ret := 0, val := w, k := { k with trace := k.trace ++ [Event.probe ptr] } }) ∧
    (env.probe_user_read ptr = none → translates env ptr →
      (read_user_stack_64 env k ptr dst).ret = 0 ∧
      (read_user_stack_64 env k ptr dst).val = kernel_word env (slow_src env ptr) ∧
      slow_src env ptr
        = wrap (env.pfn_to_kaddr (env.pte_pfn (lookup_pte env ptr))
            + ptr % 2 ^ mapping_shift env ptr) ∧
      ∀ fast : Nat → Option Nat, fast ptr = some (kernel_word env (slow_src env ptr)) →
        (read_user_stack_64 { env with probe_user_read := fast } k ptr dst).ret
          = (read_user_stack_64 env k ptr dst).ret ∧
        (read_user_stack_64 { env with probe_user_read := fast } k ptr dst).val
          = (read_user_stack_64 env k ptr dst).val) := by
  have hr2 : ptr ≤ wrap (env.TASK_SIZE + U64 - 8) := by rw [wrap_task_size env h8 hT]; exact hr
  have hptr : ptr < U64 := by omega
  refine ⟨?_, ?_⟩
  · intro w hw
    rw [read_user_stack_64_of_guard_ok env k ptr dst hr2 hal, hw]
  · intro hnone htr
    have hslow : read_user_stack_64 env k ptr dst =
        { ret := 0
          val := kernel_word env (slow_src env ptr)
          k := { irq_enabled := k.irq_enabled
                 trace := k.trace ++ [Event.probe ptr] ++
                   [Event.irq_save, Event.pte_lookup env.pgd ptr,
                    Event.memcpy (slow_src env ptr) 8, Event.irq_restore k.irq_enabled] } } := by
      rw [read_user_stack_64_of_guard_ok env k ptr dst hr2 hal, hnone]
      simp only [read_user_stack_slow_of_translates env _ ptr _ 8 htr, memcpy_word]
      rfl
    refine ⟨by rw [hslow], by rw [hslow], ?_, ?_⟩
    · unfold slow_src
      rw [page_offset_eq_mod ptr _ hptr]
    · intro fast hfast
      have hfastread := read_user_stack_64_of_guard_ok { env with probe_user_read := fast }
        k ptr dst hr2 hal
      simp only [hfast] at hfastread
      rw [hfastread, hslow]
      exact ⟨rfl, rfl⟩

/-- C12: on every exit path of `read_user_stack_slow` the interrupt flag on
return equals the flag on entry.  With a null page-table root the kernel state
is untouched (nothing is saved, interrupts are never disabled); otherwise the
events added are one `local_irq_save`, then events that are not interrupt
operations, then one `local_irq_restore` of the flag that was saved. -/
theorem read_user_stack_slow_restores_interrupts (env : Env) (k : Kernel) (ptr : Nat)
    (buf : List Nat) (nb : Nat) :
    (read_user_stack_slow env k ptr buf nb).k.irq_enabled = k.irq_enabled ∧
    ((env.pgd = 0 ∧ (read_user_stack_slow env k ptr buf nb).k = k) ∨
     (env.pgd ≠ 0 ∧ ∃ mid : List Event,
        (read_user_stack_slow env k ptr buf nb).k.trace
          = k.trace ++ [Event.irq_save] ++ mid ++ [Event.irq_restore k.irq_enabled] ∧
        ∀ e ∈ mid, e.is_irq_op = false)) := by
  by_cases h1 : env.pgd = 0
  · rw [read_user_stack_slow_of_null_pgd env k ptr buf nb h1]
    exact ⟨rfl, Or.inl ⟨h1, rfl⟩⟩
  · by_cases htr : translates env ptr
    · rw [read_user_stack_slow_of_translates env k ptr buf nb htr]
      exact ⟨rfl, Or.inr ⟨h1, [Event.pte_lookup env.pgd ptr, Event.memcpy (slow_src env ptr) nb],
        by simp, by simp [Event.is_irq_op]⟩⟩
    · rw [read_user_stack_slow_of_not_translates env k ptr buf nb h1 htr]
      exact ⟨rfl, Or.inr ⟨h1, [Event.pte_lookup env.pgd ptr], by simp,
        by simp [Event.is_irq_op]⟩⟩

theorem translates_of_slow_ok (env : Env) (k : Kernel) (ptr : Nat) (buf : List Nat) (nb : Nat)
    (h : (read_user_stack_slow env k ptr buf nb).ret = 0) : translates env ptr := by
  by_contra htr
  by_cases h1 : env.pgd = 0
  · rw [read_user_stack_slow_of_null_pgd env k ptr buf nb h1] at h
    exact EFAULT_neg_ne_zero h
  · rw [read_user_stack_slow_of_not_translates env k ptr buf nb h1 htr] at h
    exact EFAULT_neg_ne_zero h

/-- C19: for an 8-byte-aligned address and a mapping shift `s >= 3`, the offset
`addr & ((1UL << s) - 1)` computed by `read_user_stack_slow` equals
`addr mod 2 ^ s` and `offset + 8 <= 2 ^ s`; and when `read_user_stack_64`
succeeds through the slow path with that shift, the copy it issued is the
8-byte `memcpy` from `pfn_to_kaddr(pfn) + offset`. -/
theorem slow_path_copy_within_page (env : Env) (k : Kernel) (addr dst s : Nat)
    (ha : addr < U64) (hal : addr &&& 7 = 0) (hs : 3 ≤ s) :
    page_offset addr s = addr % 2 ^ s ∧
    page_offset addr s + 8 ≤ 2 ^ s ∧
    ((read_user_stack_64 env k addr dst).ret = 0 → env.probe_user_read addr = none →
      mapping_shift env addr = s →
      Event.memcpy
        (wrap (env.pfn_to_kaddr (env.pte_pfn (lookup_pte env addr)) + page_offset addr s)) 8
        ∈ (read_user_stack_64 env k addr dst).k.trace) := by
  have hoff := page_offset_eq_mod addr s ha
  refine ⟨hoff, ?_, ?_⟩
  · rw [hoff]
    obtain ⟨m, rfl⟩ : ∃ m, s = m + 3 := ⟨s - 3, by omega⟩
    have h8 : addr % 8 = 0 := by
      have := hal
      rw [show (7 : Nat) = 2 ^ 3 - 1 by norm_num, Nat.and_pow_two_sub_one_eq_mod] at this
      simpa using this
    have hpow : 2 ^ (m + 3) = 8 * 2 ^ m := by rw [pow_add]; ring
    have hlt : addr % 2 ^ (m + 3) < 2 ^ (m + 3) := Nat.mod_lt _ (by positivity)
    have hmod : addr % 2 ^ (m + 3) % 8 = 0 := by
      rw [Nat.mod_mod_of_dvd _ ⟨2 ^ m, hpow⟩]
      exact h8
    rw [hpow] at hlt ⊢
    rw [hpow] at hmod
    omega
  · intro hok hnone hshift
    have hg := read_user_stack_64_guard_of_ok env k addr dst hok
    have heq := read_user_stack_64_of_guard_ok env k addr dst hg.1 hg.2
    simp only [hnone] at heq
    have hslow : (read_user_stack_slow env { k with trace := k.trace ++ [Event.probe addr] }
        addr (bytes_of_word env.big_endian dst) 8).ret = 0 := by
      rw [heq] at hok
      exact hok
    have htr := translates_of_slow_ok env _ addr _ 8 hslow
    rw [heq, read_user_stack_slow_of_translates env _ addr _ 8 htr]
    simp [slow_src, hshift]

/-- C17: when no vdso signal trampoline is registered (`vdso64_rt_sigtramp` is 0
or `vdso_base` is 0), `is_sigreturn_64_address(nip, fp)` is true exactly when
`nip` equals `fp + offsetof(struct signal_frame_64, tramp)` in 64-bit
arithmetic; so `nip` being `vdso_base + vdso64_rt_sigtramp` does not make it
true unless it is also that on-stack address. -/
theorem is_sigreturn_64_address_without_vdso (env : Env) (nip fp : Nat)
    (h : env.vdso64_rt_sigtramp = 0 ∨ env.vdso_base = 0) :
    (is_sigreturn_64_address env nip fp = true ↔ nip = wrap (fp + env.off_tramp)) ∧
    (nip = wrap (env.vdso_base + env.vdso64_rt_sigtramp) → nip ≠ wrap (fp + env.off_tramp) →
      is_sigreturn_64_address env nip fp = false) := by
  have hiff : is_sigreturn_64_address env nip fp = true ↔ nip = wrap (fp + env.off_tramp) := by
    rw [is_sigreturn_64_address_iff]
    constructor
    · rintro (h1 | ⟨h1, h2, _⟩)
      · exact h1
      · rcases h with h | h
        · exact absurd h h1
        · exact absurd h h2
    · exact Or.inl
  refine ⟨hiff, fun _ hne => ?_⟩
  cases hc : is_sigreturn_64_address env nip fp with
  | false => rfl
  | true => exact absurd (hiff.1 hc) hne

/-! ## Walker: implausible stack pointer, missing page-table root -/

theorem init_state_ip (env : Env) (k : Kernel) (entry : Entry) (regs : pt_regs) :
    (init_state env k entry regs).entry.ip = entry.ip ++ [env.perf_instruction_pointer regs] :=
  rfl

theorem perf_callchain_user_64_total (env : Env) (k : Kernel) (entry : Entry) (regs : pt_regs) :
    ∃ st, perf_callchain_user_64 env k entry regs = some st := by
  unfold perf_callchain_user_64
  apply walk_loop_total
  have : (init_state env k entry regs).entry.max_stack = entry.max_stack := rfl
  omega

/-- C15: if the stack pointer at the start of an iteration fails
`invalid_user_sp`, the iteration returns with the state exactly as it was (no
entry appended, no event added to the kernel log, so no memory read), and that
state is the result of the walk; when the sampled stack pointer itself is
implausible and `max_stack >= 1` the output is exactly the initial instruction
pointer and the kernel state is the one on entry. -/
theorem implausible_sp_ends_walk (env : Env) :
    (∀ st, env.invalid_user_sp st.sp = true →
      loop_body env st = Outcome.ret st ∧
      ∀ fuel st1, walk_loop env fuel st = some st1 → st1 = st) ∧
    (∀ k regs max_stack, env.invalid_user_sp (regs.gpr 1) = true → 1 ≤ max_stack →
      ∃ st, perf_callchain_user_64 env k { ip := [], max_stack := max_stack } regs = some st ∧
        st.entry.ip = [env.perf_instruction_pointer regs] ∧ st.k = k) := by
  have hst : ∀ st, env.invalid_user_sp st.sp = true →
      ∀ fuel st1, walk_loop env fuel st = some st1 → st1 = st := by
    intro st h fuel st1 hw
    have hb := loop_body_of_invalid_sp env st h
    by_cases hc : st.entry.nr < st.entry.max_stack
    · cases fuel with
      | zero => simp [walk_loop, hc] at hw
      | succ n =>
        rw [walk_loop_ret env n st st hc hb] at hw
        injection hw with hw
        exact hw.symm
    · rw [walk_loop_done env fuel st hc] at hw
      injection hw with hw
      exact hw.symm
  refine ⟨fun st h => ⟨loop_body_of_invalid_sp env st h, hst st h⟩, ?_⟩
  intro k regs max_stack h _
  obtain ⟨st, hs⟩ := perf_callchain_user_64_total env k { ip := [], max_stack := max_stack } regs
  refine ⟨st, hs, ?_⟩
  unfold perf_callchain_user_64 at hs
  have := hst (init_state env k { ip := [], max_stack := max_stack } regs) h _ st hs
  rw [this]
  exact ⟨rfl, rfl⟩

/-- Witness of C15: the sampled stack pointer `0x1004` is misaligned, hence
implausible, and the output is `[ip]`. -/
theorem implausible_sp_ends_walk_witness :
    ∃ st, perf_callchain_user_64 chain_env k0 { ip := [], max_stack := 10 }
        (demo_regs 0x111 0x222 0x1004) = some st ∧
      st.entry.ip = [chain_env.perf_instruction_pointer (demo_regs 0x111 0x222 0x1004)] ∧
      st.k = k0 :=
  (implausible_sp_ends_walk chain_env).2 k0 (demo_regs 0x111 0x222 0x1004) 10
    (by decide) (by decide)

/-! ## Walker: termination -/

theorem loop_body_cont_nr (env : Env) (st st1 : State)
    (h : loop_body env st = Outcome.cont st1) :
    st.entry.nr < st1.entry.nr ∧ st1.entry.max_stack = st.entry.max_stack := by
  have h2 := loop_body_cont_entry env st st1 h
  refine ⟨?_, h2.1⟩
  unfold Entry.nr
  rcases h2.2 with h3 | h3 <;> rw [h3] <;> simp

theorem iterations_le (env : Env) (fuel : Nat) (st : State) :
    iterations env fuel st ≤ st.entry.max_stack - st.entry.nr := by
  induction fuel generalizing st with
  | zero => simp [iterations]
  | succ n ih =>
    unfold iterations
    by_cases hc : st.entry.nr < st.entry.max_stack
    · rw [if_pos hc]
      cases hb : loop_body env st with
      | ret s =>
        simp only []
        omega
      | cont s =>
        simp only []
        have h1 := ih s
        have h2 := loop_body_cont_nr env st s hb
        rw [h2.2] at h1
        omega
    · rw [if_neg hc]
      exact Nat.zero_le _

/-- C14: `perf_callchain_user_64` returns for every register snapshot, maximum
depth, initial sequence and memory content: an iteration that does not end the
walk strictly increases the length of the entry sequence and keeps
`max_stack`, so the loop finishes within `max_stack - nr` executions of the
body, and the body runs at most `max_stack` times. -/
theorem perf_callchain_user_64_terminates (env : Env) (k : Kernel) (entry : Entry)
    (regs : pt_regs) :
    (∃ st, perf_callchain_user_64 env k entry regs = some st) ∧
    (∀ st st1, loop_body env st = Outcome.cont st1 →
      st.entry.ip.length < st1.entry.ip.length ∧ st1.entry.max_stack = st.entry.max_stack) ∧
    (∀ st fuel, st.entry.max_stack - st.entry.nr ≤ fuel →
      ∃ st1, walk_loop env fuel st = some st1) ∧
    iterations env entry.max_stack (init_state env k entry regs) ≤ entry.max_stack := by
  refine ⟨perf_callchain_user_64_total env k entry regs,
    fun st st1 h => loop_body_cont_nr env st st1 h,
    fun st fuel h => walk_loop_total env fuel st h, ?_⟩
  have h := iterations_le env entry.max_stack (init_state env k entry regs)
  have hm : (init_state env k entry regs).entry.max_stack = entry.max_stack := rfl
  omega

/-- Examples for C14: the walk over a frame whose back-link points to itself
and the walk over a signal frame whose saved stack pointer points to itself
both stop when the sequence reaches `max_stack`. -/
theorem cyclic_walks_stop :
    (perf_callchain_user_64 cyclic_env k0 { ip := [], max_stack := 5 }
        (demo_regs 0x111 0x222 0x1000)).map (fun st => st.entry.ip)
      = some [0x111, 0x222, 0xAAAA, 0xAAAA, 0xAAAA] ∧
    (perf_callchain_user_64 sigloop_env k0 { ip := [], max_stack := 5 }
        (demo_regs (0x1000 + 1840) 0x222 0x1000)).map (fun st => st.entry.ip)
      = some [0x1000 + 1840, 2 ^ 64 - 512, 0x1000 + 1840, 2 ^ 64 - 512, 0x1000 + 1840] := by
  decide

/-! ## Walker: which words an iteration reads -/

theorem read_user_stack_64_trace (env : Env) (k : Kernel) (ptr dst : Nat) :
    ∃ evs, (read_user_stack_64 env k ptr dst).k.trace = k.trace ++ evs ∧
      ∀ a, a ≠ ptr → ∀ e ∈ evs, Event.touches a e = false := by
  by_cases hg : ptr ≤ wrap (env.TASK_SIZE + U64 - 8) ∧ ptr &&& 7 = 0
  · have heq := read_user_stack_64_of_guard_ok env k ptr dst hg.1 hg.2
    cases hp : env.probe_user_read ptr with
    | some w =>
      simp only [hp] at heq
      rw [heq]
      refine ⟨[Event.probe ptr], rfl, ?_⟩
      intro a ha e he
      simp at he
      subst he
      simp [Event.touches, Ne.symm ha]
    | none =>
      simp only [hp] at heq
      rw [heq]
      by_cases h1 : env.pgd = 0
      · rw [read_user_stack_slow_of_null_pgd env _ ptr _ 8 h1]
        refine ⟨[Event.probe ptr], rfl, ?_⟩
        intro a ha e he
        simp at he
        subst he
        simp [Event.touches, Ne.symm ha]
      · by_cases htr : translates env ptr
        · rw [read_user_stack_slow_of_translates env _ ptr _ 8 htr]
          refine ⟨[Event.probe ptr, Event.irq_save, Event.pte_lookup env.pgd ptr,
            Event.memcpy (slow_src env ptr) 8, Event.irq_restore k.irq_enabled], by simp, ?_⟩
          intro a ha e he
          simp at he
          rcases he with he | he | he | he | he <;> subst he <;>
            simp [Event.touches, Ne.symm ha]
        · rw [read_user_stack_slow_of_not_translates env _ ptr _ 8 h1 htr]
          refine ⟨[Event.probe ptr, Event.irq_save, Event.pte_lookup env.pgd ptr,
            Event.irq_restore k.irq_enabled], by simp, ?_⟩
          intro a ha e he
          simp at he
          rcases he with he | he | he | he <;> subst he <;>
            simp [Event.touches, Ne.symm ha]
  · have hbad : wrap (env.TASK_SIZE + U64 - 8) < ptr ∨ ptr &&& 7 ≠ 0 := by
      by_cases h1 : ptr ≤ wrap (env.TASK_SIZE + U64 - 8)
      · exact Or.inr (fun h2 => hg ⟨h1, h2⟩)
      · exact Or.inl (by omega)
    rw [read_user_stack_64_fault_of_guard env k ptr dst hbad]
    exact ⟨[], by simp, by simp⟩

theorem sane_signal_64_frame_trace (env : Env) (k : Kernel) (sp : Nat) :
    ∃ evs, (sane_signal_64_frame env k sp).2.trace = k.trace ++ evs ∧
      ∀ a, a ≠ wrap (sp + env.off_pinfo) → a ≠ wrap (sp + env.off_puc) →
        ∀ e ∈ evs, Event.touches a e = false := by
  obtain ⟨e1, h1, t1⟩ := read_user_stack_64_trace env k (wrap (sp + env.off_pinfo)) 0
  obtain ⟨e2, h2, t2⟩ := read_user_stack_64_trace env (rd_pinfo env k sp).k
    (wrap (sp + env.off_puc)) 0
  have hp : (rd_pinfo env k sp).k.trace = k.trace ++ e1 := h1
  have hq : (rd_puc env k sp).k.trace = k.trace ++ (e1 ++ e2) := by
    unfold rd_puc
    rw [h2, hp, List.append_assoc]
  have tq : ∀ a, a ≠ wrap (sp + env.off_pinfo) → a ≠ wrap (sp + env.off_puc) →
      ∀ e ∈ e1 ++ e2, Event.touches a e = false := by
    intro a ha1 ha2 e he
    rcases List.mem_append.1 he with he | he
    · exact t1 a ha1 e he
    · exact t2 a ha2 e he
  unfold sane_signal_64_frame
  split_ifs
  · exact ⟨e1, hp, fun a ha1 _ => t1 a ha1⟩
  · exact ⟨e1 ++ e2, hq, tq⟩
  · exact ⟨e1 ++ e2, hq, tq⟩

theorem read_user_stack_64_poke (env : Env) (k : Kernel) (ptr dst a : Nat) (x : Option Nat)
    (h : ptr ≠ a) :
    read_user_stack_64 (poke_fast env a x) k ptr dst = read_user_stack_64 env k ptr dst := by
  unfold read_user_stack_64
  have hp : (poke_fast env a x).probe_user_read ptr = env.probe_user_read ptr := by
    simp [poke_fast, h]
  have hs : ∀ k1 buf, read_user_stack_slow (poke_fast env a x) k1 ptr buf 8
      = read_user_stack_slow env k1 ptr buf 8 := fun _ _ => rfl
  rw [hp]
  simp only [hs]
  rfl

theorem sp_ne_wrap_add (sp : Nat) : sp ≠ wrap (sp + 16) := by
  intro h
  have hlt := wrap_lt (sp + 16)
  rw [← h] at hlt
  unfold wrap at h
  have hU : U64 = 2 ^ 64 := rfl
  rw [hU] at h hlt
  omega

theorem wrap_add_ne_of_offset (sp off : Nat) (h : off % U64 ≠ 16) :
    wrap (sp + off) ≠ wrap (sp + 16) := by
  intro heq
  have h1 : sp + off ≡ sp + 16 [MOD U64] := heq
  have h2 : off ≡ 16 [MOD U64] := Nat.ModEq.add_left_cancel' sp h1
  have h3 : off % U64 = 16 % U64 := h2
  exact h (by rw [h3]; decide)

theorem signal_frame_test_trace (env : Env) (k : Kernel) (sp next_sp next_ip lr : Nat)
    (level : Int) :
    ∃ evs, (signal_frame_test env k sp next_sp next_ip lr level).2.trace = k.trace ++ evs ∧
      ∀ a, a ≠ wrap (sp + env.off_pinfo) → a ≠ wrap (sp + env.off_puc) →
        ∀ e ∈ evs, Event.touches a e = false := by
  unfold signal_frame_test
  split_ifs
  · exact sane_signal_64_frame_trace env k sp
  · exact ⟨[], by simp, by simp⟩

theorem sane_signal_64_frame_poke (env : Env) (k : Kernel) (sp a : Nat) (x : Option Nat)
    (h1 : wrap (sp + env.off_pinfo) ≠ a) (h2 : wrap (sp + env.off_puc) ≠ a) :
    sane_signal_64_frame (poke_fast env a x) k sp = sane_signal_64_frame env k sp := by
  have hp : rd_pinfo (poke_fast env a x) k sp = rd_pinfo env k sp :=
    read_user_stack_64_poke env k _ 0 a x h1
  have hq : rd_puc (poke_fast env a x) k sp = rd_puc env k sp := by
    unfold rd_puc
    rw [hp]
    exact read_user_stack_64_poke env _ _ 0 a x h2
  unfold sane_signal_64_frame
  rw [hp, hq]
  rfl

theorem rd_saved_ip_level_zero (env : Env) (st : State) (h : st.level = 0) :
    rd_saved_ip env st = { ret := 0, val := st.next_ip, k := (rd_backlink env st).k } := by
  unfold rd_saved_ip
  rw [if_neg (by rw [h]; decide)]

/-- C16: in a normal-frame step at nesting level 0 the address appended is the
cursor's link register (`regs->link` at the start, the `PT_LNK` value after a
signal transition, unchanged by normal steps), no event of the step is an access
for the word at `sp + 16`, and replacing the fast-path view of that word by
anything, including making it unreadable, leaves the step unchanged; in a
normal-frame step at level above 0 the address appended is the word read at
`sp + 16`.  The offsets of `pinfo` and `puc` are not 16. -/
theorem return_address_source (env : Env) (st : State)
    (hsp : env.invalid_user_sp st.sp = false)
    (hbl : (rd_backlink env st).ret = 0)
    (hc : (classify env st).1 = false) :
    (st.level = 0 → env.off_pinfo % U64 ≠ 16 → env.off_puc % U64 ≠ 16 →
      loop_body env st = Outcome.cont (normal_step env st) ∧
      (normal_step env st).entry.ip = st.entry.ip ++ [st.lr] ∧
      (∃ evs, (normal_step env st).k.trace = st.k.trace ++ evs ∧
        ∀ e ∈ evs, Event.touches (wrap (st.sp + 16)) e = false) ∧
      ∀ x, loop_body (poke_fast env (wrap (st.sp + 16)) x) st = loop_body env st) ∧
    (st.level > 0 → (rd_saved_ip env st).ret = 0 →
      loop_body env st = Outcome.cont (normal_step env st) ∧
      (read_user_stack_64 env (rd_backlink env st).k (wrap (st.sp + 16)) st.next_ip).ret = 0 ∧
      (normal_step env st).entry.ip = st.entry.ip ++
        [(read_user_stack_64 env (rd_backlink env st).k (wrap (st.sp + 16)) st.next_ip).val]) ∧
    (∀ k entry regs, (init_state env k entry regs).lr = regs.link) ∧
    (signal_step env st).lr = (rd_lnk env st).val ∧
    (normal_step env st).lr = st.lr := by
  refine ⟨?_, ?_, fun _ _ _ => rfl, rfl, rfl⟩
  · intro hl hpinfo hpuc
    have hsi := rd_saved_ip_level_zero env st hl
    have h2 : (rd_saved_ip env st).ret = 0 := by rw [hsi]
    have hbody := loop_body_normal env st hsp hbl h2 hc
    have hn1 := wrap_add_ne_of_offset st.sp env.off_pinfo hpinfo
    have hn2 := wrap_add_ne_of_offset st.sp env.off_puc hpuc
    refine ⟨hbody, ?_, ?_, ?_⟩
    · rw [normal_step_ip]
      unfold return_address
      rw [if_pos hl]
    · obtain ⟨e1, he1, t1⟩ := read_user_stack_64_trace env st.k st.sp st.next_sp
      obtain ⟨e2, he2, t2⟩ := signal_frame_test_trace env (rd_saved_ip env st).k st.sp
        (rd_backlink env st).val (rd_saved_ip env st).val st.lr st.level
      refine ⟨e1 ++ e2, ?_, ?_⟩
      · show (classify env st).2.trace = _
        unfold classify
        rw [he2, hsi]
        show (rd_backlink env st).k.trace ++ e2 = _
        unfold rd_backlink
        rw [he1, List.append_assoc]
      · intro e he
        rcases List.mem_append.1 he with he | he
        · exact t1 _ (Ne.symm (sp_ne_wrap_add st.sp)) e he
        · exact t2 _ (Ne.symm hn1) (Ne.symm hn2) e he
    · intro x
      have hb2 : rd_backlink (poke_fast env (wrap (st.sp + 16)) x) st = rd_backlink env st :=
        read_user_stack_64_poke env st.k st.sp st.next_sp _ x (sp_ne_wrap_add st.sp)
      have hs2 : rd_saved_ip (poke_fast env (wrap (st.sp + 16)) x) st = rd_saved_ip env st := by
        rw [rd_saved_ip_level_zero _ st hl, hsi, hb2]
      have hc2 : classify (poke_fast env (wrap (st.sp + 16)) x) st = classify env st := by
        unfold classify signal_frame_test
        rw [hb2, hs2, sane_signal_64_frame_poke env _ st.sp _ x hn1 hn2]
        rfl
      have hbody2 := loop_body_normal (poke_fast env (wrap (st.sp + 16)) x) st hsp
        (by rw [hb2]; exact hbl) (by rw [hs2]; exact h2) (by rw [hc2]; exact hc)
      rw [hbody2, hbody]
      unfold normal_step return_address
      rw [hb2, hs2, hc2]
  · intro hl h2
    have hsi : rd_saved_ip env st
        = read_user_stack_64 env (rd_backlink env st).k (wrap (st.sp + 16)) st.next_ip := by
      unfold rd_saved_ip
      rw [if_pos hl]
    refine ⟨loop_body_normal env st hsp hbl h2 hc, by rw [← hsi]; exact h2, ?_⟩
    rw [normal_step_ip]
    unfold return_address
    rw [if_neg (by omega), hsi]

/-! ## Walker: the nesting level -/

theorem head_invariant (env : Env) (k : Kernel) (entry : Entry) (regs : pt_regs)
    (st : State) (n b : Nat) (h : Head env k entry regs st n b) :
    st.level = (n : Int) ∧ st.entry.ip.length = b + n + 1 ∧
    (b = entry.ip.length ∨ (0 < b ∧ st.entry.ip.get? (b - 1) = some env.PERF_CONTEXT_USER)) := by
  induction h with
  | start =>
    refine ⟨rfl, ?_, Or.inl rfl⟩
    rw [init_state_ip]
    simp
  | normal st n b _ _ _ _ ih =>
    obtain ⟨h1, h2, h3⟩ := ih
    refine ⟨?_, ?_, ?_⟩
    · show st.level + 1 = _
      rw [h1]
      push_cast
      rfl
    · rw [normal_step_ip, List.length_append, h2]
      simp
      omega
    · rcases h3 with h3 | ⟨hb, h3⟩
      · exact Or.inl h3
      · refine Or.inr ⟨hb, ?_⟩
        rw [normal_step_ip, List.get?_eq_getElem?, List.getElem?_append_left (by omega),
          ← List.get?_eq_getElem?]
        exact h3
  | signal st n b _ _ _ _ ih =>
    refine ⟨rfl, ?_, Or.inr ⟨by omega, ?_⟩⟩
    · rw [signal_step_ip, List.length_append]
      simp
    · rw [signal_step_ip, List.get?_eq_getElem?, Nat.add_sub_cancel,
        List.getElem?_append_right (le_refl _)]
      simp

theorem head_of_reaches (env : Env) (k : Kernel) (entry : Entry) (regs : pt_regs)
    (st st2 : State) (hr : Reaches env st st2) :
    ∀ n b, Head env k entry regs st n b → ∃ n2 b2, Head env k entry regs st2 n2 b2 := by
  induction hr with
  | refl st => exact fun n b h => ⟨n, b, h⟩
  | step st st1 st2 hnr hbody _ ih =>
    intro n b h
    rcases loop_body_cases env st with ⟨s, hs, _⟩ | ⟨hs, hc⟩ | ⟨hs, hc⟩
    · rw [hs] at hbody
      cases hbody
    · have : st1 = signal_step env st := by
        rw [hs] at hbody
        injection hbody with hbody
        exact hbody.symm
      subst this
      exact ih _ _ (Head.signal st n b h hnr hs hc)
    · have : st1 = normal_step env st := by
        rw [hs] at hbody
        injection hbody with hbody
        exact hbody.symm
      subst this
      exact ih _ _ (Head.normal st n b h hnr hs hc)

theorem takeWhile_append_stop (p : Nat → Bool) (xs ys : List Nat) (y : Nat)
    (hxs : ∀ x ∈ xs, p x = true) (hy : p y = false) :
    (xs ++ y :: ys).takeWhile p = xs := by
  induction xs with
  | nil => simp [List.takeWhile, hy]
  | cons a t ih =>
    have ha : p a = true := hxs a (List.mem_cons_self a t)
    simp only [List.cons_append, List.takeWhile_cons, ha, if_true]
    rw [ih (fun x hx => hxs x (List.mem_cons_of_mem a hx))]

theorem entries_after_last_of_split (m : Nat) (l : List Nat) (b : Nat)
    (hb : b = 0 ∨ (0 < b ∧ l.get? (b - 1) = some m))
    (hfree : ∀ v ∈ l.drop b, v ≠ m) :
    entries_after_last m l = l.length - b := by
  unfold entries_after_last
  rcases hb with hb | ⟨hb, hm⟩
  · subst hb
    rw [List.drop_zero] at hfree
    rw [List.takeWhile_eq_self_iff.2]
    · simp
    · intro x hx
      simpa using hfree x (List.mem_reverse.1 hx)
  · obtain ⟨c, rfl⟩ : ∃ c, b = c + 1 := ⟨b - 1, by omega⟩
    rw [Nat.add_sub_cancel, List.get?_eq_getElem?] at hm
    obtain ⟨hc, hget⟩ := List.getElem?_eq_some_iff.1 hm
    have hsplit : l = l.take c ++ m :: l.drop (c + 1) := by
      conv_lhs => rw [← List.take_append_drop c l]
      rw [List.drop_eq_getElem_cons hc, hget]
    have hrev : l.reverse = (l.drop (c + 1)).reverse ++ m :: (l.take c).reverse := by
      conv_lhs => rw [hsplit]
      simp
    rw [hrev, takeWhile_append_stop]
    · simp
    · intro x hx
      simpa using hfree x (List.mem_reverse.1 hx)
    · simp

/-- C18: at the head of every iteration of the walk the nesting level is
non-negative and equals the number `n` of normal-frame steps taken since the
start of the walk or since the most recent signal transition; the sequence
holds exactly `n + 1` entries after the marker stored by that transition (after
the initial sequence if there was none), and, for a walk started on an empty
sequence in which none of these entries has the value `PERF_CONTEXT_USER`, the
number of entries after the last entry with that value, minus one, is the
level; hence `level <= 1` holds exactly when the level is 0 or 1. -/
theorem level_counts_normal_steps (env : Env) (k : Kernel) (entry : Entry) (regs : pt_regs)
    (st : State) (h : Reaches env (init_state env k entry regs) st) :
    ∃ n b, Head env k entry regs st n b ∧
      0 ≤ st.level ∧ st.level = (n : Int) ∧
      st.entry.ip.length = b + n + 1 ∧
      (b = entry.ip.length ∨
        (0 < b ∧ st.entry.ip.get? (b - 1) = some env.PERF_CONTEXT_USER)) ∧
      (entry.ip = [] → (∀ v ∈ st.entry.ip.drop b, v ≠ env.PERF_CONTEXT_USER) →
        ((entries_after_last env.PERF_CONTEXT_USER st.entry.ip : Nat) : Int) - 1 = st.level) ∧
      (st.level ≤ 1 ↔ (st.level = 0 ∨ st.level = 1)) := by
  obtain ⟨n, b, hh⟩ := head_of_reaches env k entry regs _ st h 0 entry.ip.length Head.start
  obtain ⟨h1, h2, h3⟩ := head_invariant env k entry regs st n b hh
  refine ⟨n, b, hh, by rw [h1]; exact Int.natCast_nonneg n, h1, h2, h3, ?_, ?_⟩
  · intro hempty hfree
    have hb : b = 0 ∨ (0 < b ∧ st.entry.ip.get? (b - 1) = some env.PERF_CONTEXT_USER) := by
      rcases h3 with h3 | h3
      · left
        rw [h3, hempty]
        rfl
      · exact Or.inr h3
    rw [entries_after_last_of_split _ _ b hb hfree, h2, h1]
    have : b + n + 1 - b = n + 1 := by omega
    rw [this]
    push_cast
    ring
  · rw [h1]
    omega

/-! ## Concrete runs: reader paths, return address, nesting level -/

/-- Witness of C11: in `fast_env` the read at `0x20008` returns the fast-path
word with the fast-path access as only event; in `slow_env` the same read
succeeds through the page table with the word stored at the kernel alias. -/
theorem read_user_stack_64_fast_and_slow_paths_witness :
    read_user_stack_64 fast_env k0 0x20008 5 =
      { ret := 0, val := 77, k := { k0 with trace := k0.trace ++ [Event.probe 0x20008] } } ∧
    (read_user_stack_64 slow_env k0 0x20008 5).ret = 0 ∧
    (read_user_stack_64 slow_env k0 0x20008 5).val
      = kernel_word slow_env (slow_src slow_env 0x20008) :=
  have hs := (read_user_stack_64_fast_and_slow_paths slow_env k0 0x20008 5
    (by decide) (by decide) (by decide) (by decide)).2 (by decide)
    ⟨by decide, by decide, by decide, by decide, by decide⟩
  ⟨(read_user_stack_64_fast_and_slow_paths fast_env k0 0x20008 5
      (by decide) (by decide) (by decide) (by decide)).1 77 (by decide),
   hs.1, hs.2.1⟩

/-- Witness of C16: the first iteration over `demo_chain` is a normal-frame step
at level 0; it appends `lr` and is unchanged when the word at `sp + 16` is made
unreadable. -/
theorem return_address_source_witness :
    loop_body chain_env chain_state = Outcome.cont (normal_step chain_env chain_state) ∧
    (normal_step chain_env chain_state).entry.ip = chain_state.entry.ip ++ [chain_state.lr] ∧
    loop_body (poke_fast chain_env (wrap (chain_state.sp + 16)) none) chain_state
      = loop_body chain_env chain_state :=
  have h := (return_address_source chain_env chain_state (by decide) (by decide)
    (by decide)).1 (by decide) (by decide) (by decide)
  ⟨h.1, h.2.1, h.2.2.2 none⟩

/-- Witness of C17: `sig_env` has no vdso trampoline, and only the on-stack
trampoline address of the frame is accepted. -/
theorem is_sigreturn_64_address_without_vdso_witness :
    (is_sigreturn_64_address sig_env (0x1000 + 1840) 0x1000 = true ↔
      0x1000 + 1840 = wrap (0x1000 + sig_env.off_tramp)) ∧
    (0 = wrap (sig_env.vdso_base + sig_env.vdso64_rt_sigtramp) →
      0 ≠ wrap (0x1000 + sig_env.off_tramp) →
      is_sigreturn_64_address sig_env 0 0x1000 = false) :=
  ⟨(is_sigreturn_64_address_without_vdso sig_env (0x1000 + 1840) 0x1000
      (Or.inl (by decide))).1,
   (is_sigreturn_64_address_without_vdso sig_env 0 0x1000 (Or.inl (by decide))).2⟩

/-- Witness of C18: after the signal transition of `sig_env` the loop head is
reached with level 0 and one entry after the marker. -/
theorem level_counts_normal_steps_witness :
    ∃ n b, Head sig_env k0 { ip := [], max_stack := 10 }
        (demo_regs (0x1000 + 1840) 0x222 0x1000) (signal_step sig_env sig_state) n b ∧
      0 ≤ (signal_step sig_env sig_state).level ∧
      (signal_step sig_env sig_state).level = (n : Int) ∧
      (signal_step sig_env sig_state).entry.ip.length = b + n + 1 ∧
      (b = ({ ip := [], max_stack := 10 } : Entry).ip.length ∨
        (0 < b ∧ (signal_step sig_env sig_state).entry.ip.get? (b - 1)
          = some sig_env.PERF_CONTEXT_USER)) ∧
      (({ ip := [], max_stack := 10 } : Entry).ip = [] →
        (∀ v ∈ (signal_step sig_env sig_state).entry.ip.drop b,
          v ≠ sig_env.PERF_CONTEXT_USER) →
        ((entries_after_last sig_env.PERF_CONTEXT_USER
          (signal_step sig_env sig_state).entry.ip : Nat) : Int) - 1
          = (signal_step sig_env sig_state).level) ∧
      ((signal_step sig_env sig_state).level ≤ 1 ↔
        ((signal_step sig_env sig_state).level = 0 ∨
          (signal_step sig_env sig_state).level = 1)) :=
  level_counts_normal_steps sig_env k0 { ip := [], max_stack := 10 }
    (demo_regs (0x1000 + 1840) 0x222 0x1000) (signal_step sig_env sig_state)
    (Reaches.step sig_state (signal_step sig_env sig_state) _ (by decide) (by decide)
      (Reaches.refl _))

/-- Witness of C19: for the address `0x20008` in the 64K page of `slow_env` the
offset is 8, the copy ends inside the page, and the successful slow-path read
issued the 8-byte copy from that offset of the frame. -/
theorem slow_path_copy_within_page_witness :
    page_offset 0x20008 16 = 0x20008 % 2 ^ 16 ∧
    page_offset 0x20008 16 + 8 ≤ 2 ^ 16 ∧
    Event.memcpy
      (wrap (slow_env.pfn_to_kaddr (slow_env.pte_pfn (lookup_pte slow_env 0x20008))
        + page_offset 0x20008 16)) 8
      ∈ (read_user_stack_64 slow_env k0 0x20008 5).k.trace :=
  have h := slow_path_copy_within_page slow_env k0 0x20008 5 16
    (by decide) (by decide) (by decide)
  ⟨h.1, h.2.1, h.2.2 (by decide) (by decide) (by decide)⟩

end Callchain64
